import Mathlib

/-!
# The generated-config cache of devspace (`pkg/devspace/config/generated/config.go`)

A shallow embedding of the Go package `generated` and theorems about it.

Modelling conventions.

* A Go map is `GoMap V`: `none` is the nil map, `some l` an allocated map whose
  entries are the association list `l` (the first pair with a key is its entry).
  Reading a nil map finds nothing; assigning into a nil map panics.
* A Go pointer is an `Option`: `none` is nil, and a dereference of nil panics.
  The `*CacheConfig` values of `Config.Profiles` are held in place: each name
  owns its object, and a store through the pointer held under a name is an
  update of that entry. The `*ImageCache` and `*DeploymentCache` values are
  addresses into a `Store`, because the accessors hand these pointers out and
  callers write through them.
* A function that can panic returns `Except Panic _`, and its result carries
  the state it leaves (the config or cache it was called on, the store, the
  file system). A Go `error` result is an `Option GoError`, `none` being nil.
* The operating system and the YAML library are parameters, gathered in `Env`.
  `memEnv` is one environment, for evaluating the code on concrete inputs, and
  `faultyEnv` is `memEnv` with failures of the read, the decoding, the directory
  creation or the write.
* `runCalls` gives the package variables after a sequence of calls, and
  `viewConfig` the content of a cache, for comparing caches whose entries live
  at different addresses.
* Where two names of `Profiles` may hold the same `*CacheConfig`, the profiles
  are kept on a `ProfileHeap` and a `ConfigRef` maps names to addresses;
  `ConfigRef.InitDevSpaceConfig_deref` relates the two embeddings.
* `Config.content` is the content of a cache as mappings from names, which does
  not depend on the order of entries nor tell a nil map from an empty one.
-/

namespace Generated

/-! ## Go runtime -/

/-- Run-time panics the package can raise. -/
inductive Panic where
  | nilMapAssignment
  | nilPointerDereference
  | typeAssertion
  deriving DecidableEq, Repr

deriving instance DecidableEq for Except

/-- Go `error` values returned by the operating system and the YAML library. -/
inductive GoError where
  | notExist
  | permissionDenied
  | isDirectory
  | decode (msg : String)
  | encode (msg : String)
  | io (msg : String)
  deriving DecidableEq, Repr

/-- The entry of the first pair whose key is `k`. -/
def entriesGet {V : Type} : List (String × V) → String → Option V
  | [], _ => none
  | (k', v) :: rest, k => if k' = k then some v else entriesGet rest k

/-- Overwrite the entry of `k`, or add one when `k` has none. -/
def entriesSet {V : Type} : List (String × V) → String → V → List (String × V)
  | [], k, v => [(k, v)]
  | (k', v') :: rest, k, v =>
    if k' = k then (k, v) :: rest else (k', v') :: entriesSet rest k v

/-- A Go `map[string]V`; `none` is the nil map. -/
abbrev GoMap (V : Type) := Option (List (String × V))

/-- The read `v, ok := m[k]`: `none` when `ok` is false. A nil map has no entries. -/
def GoMap.get {V : Type} (m : GoMap V) (k : String) : Option V :=
  match m with
  | none => none
  | some l => entriesGet l k

/-- The assignment `m[k] = v`, which panics on a nil map. -/
def GoMap.set {V : Type} (m : GoMap V) (k : String) (v : V) : Except Panic (GoMap V) :=
  match m with
  | none => .error .nilMapAssignment
  | some l => .ok (some (entriesSet l k v))

/-! ## Data model (lines 15-58) -/

/-- Go struct `LastContextConfig`. -/
structure LastContextConfig where
  Namespace : String
  Context : String
  deriving DecidableEq, Repr

/-- Go struct `ImageCache`. -/
structure ImageCache where
  ImageConfigHash : String
  DockerfileHash : String
  ContextHash : String
  EntrypointHash : String
  CustomFilesHash : String
  ImageName : String
  Tag : String
  deriving DecidableEq, Repr

/-- Go struct `DeploymentCache`. -/
structure DeploymentCache where
  DeploymentConfigHash : String
  HelmOverridesHash : String
  HelmChartHash : String
  KubectlManifestsHash : String
  deriving DecidableEq, Repr

/-- The composite literal `&ImageCache{}`: every field is the empty string. -/
def ImageCache.zero : ImageCache := ⟨"", "", "", "", "", "", ""⟩

/-- The composite literal `&DeploymentCache{}`: every field is the empty string. -/
def DeploymentCache.zero : DeploymentCache := ⟨"", "", "", ""⟩

/-- An address of an object in the `Store`. -/
abbrev Addr := Nat

/-- The heap objects the accessors allocate: address `a` holds the `a`-th object. -/
structure Store where
  images : List ImageCache
  deployments : List DeploymentCache
  deriving DecidableEq, Repr

/-- Go struct `CacheConfig`. The map values are `*DeploymentCache` and `*ImageCache`. -/
structure CacheConfig where
  Deployments : GoMap (Option Addr)
  Images : GoMap (Option Addr)
  Dependencies : GoMap String
  LastContext : Option LastContextConfig
  deriving DecidableEq, Repr

/-- Go struct `Config`. The values of `Profiles` are `*CacheConfig`. -/
structure Config where
  OverrideProfile : Option String
  ActiveProfile : String
  Vars : GoMap String
  Profiles : GoMap (Option CacheConfig)
  deriving DecidableEq, Repr

/-- The relative generated config path (line 61). -/
def ConfigPath : String := ".devspace/generated.yaml"

/-! ## Profile initialisation and accessors (lines 130-185) -/

/-- Go `NewCache` (lines 131-138). -/
def NewCache : CacheConfig :=
  { Deployments := some [], Images := some [], Dependencies := some [], LastContext := none }

/-- Go `InitDevSpaceConfig` (lines 170-185), on profiles held in place: the stores
of lines 177-183 update the entry of `configName`. This is the code where no other
name holds the pointer of `configName`; `ConfigRef.InitDevSpaceConfig` below is
the code where names may share a pointer. -/
def InitDevSpaceConfig (config : Config) (configName : String) : Except Panic Config :=
  match config.Profiles.get configName with
  | none => do
    let profiles ← config.Profiles.set configName (some NewCache)
    pure { config with Profiles := profiles }
  -- line 176 reads `config.Profiles[configName].Deployments` through the pointer
  | some none => .error .nilPointerDereference
  | some (some cache) => do
    let cache := if cache.Deployments.isNone then { cache with Deployments := some [] } else cache
    let cache := if cache.Images.isNone then { cache with Images := some [] } else cache
    let cache := if cache.Dependencies.isNone then { cache with Dependencies := some [] } else cache
    -- the stores of lines 177-183 went through the pointer held under `configName`
    let profiles ← config.Profiles.set configName (some cache)
    pure { config with Profiles := profiles }

/-- Go `(*Config).GetActive` (lines 141-149): the updated config and the returned pointer. -/
def Config.GetActive (config : Config) : Except Panic (Config × Option CacheConfig) := do
  let active := match config.OverrideProfile with
    | some override => override
    | none => config.ActiveProfile
  let config ← InitDevSpaceConfig config active
  -- a map read of a missing key gives the zero value, a nil pointer
  pure (config, (config.Profiles.get active).join)

/-- Go `(*CacheConfig).GetImageCache` (lines 152-158): the store and cache after the
call, and the returned `*ImageCache`. -/
def CacheConfig.GetImageCache (s : Store) (cache : CacheConfig) (imageConfigName : String) :
    Except Panic (Store × CacheConfig × Option Addr) := do
  let (s, cache) ← match cache.Images.get imageConfigName with
    | none => do
      let images ← cache.Images.set imageConfigName (some s.images.length)
      pure ({ s with images := s.images ++ [ImageCache.zero] }, { cache with Images := images })
    | some _ => pure (s, cache)
  pure (s, cache, (cache.Images.get imageConfigName).join)

/-- Go `(*CacheConfig).GetDeploymentCache` (lines 161-167): the store and cache after
the call, and the returned `*DeploymentCache`. -/
def CacheConfig.GetDeploymentCache (s : Store) (cache : CacheConfig) (deploymentName : String) :
    Except Panic (Store × CacheConfig × Option Addr) := do
  let (s, cache) ← match cache.Deployments.get deploymentName with
    | none => do
      let deployments ← cache.Deployments.set deploymentName (some s.deployments.length)
      pure ({ s with deployments := s.deployments ++ [DeploymentCache.zero] },
        { cache with Deployments := deployments })
    | some _ => pure (s, cache)
  pure (s, cache, (cache.Deployments.get deploymentName).join)

/-! ## Environment: context, operating system, YAML library -/

/-- A value stored in a `context.Context`: a string, or a value of another type. -/
inductive CtxValue where
  | str (s : String)
  | nonString
  deriving DecidableEq, Repr

/-- The execution context, reduced to what the package reads from it:
`profile` is `ctx.Value(constants.ProfileContextKey)`, `none` when that is nil. -/
structure Context where
  profile : Option CtxValue
  deriving DecidableEq, Repr

/-- The calls the package makes outside itself. `σ` is the state of the file
system and `β` the type of file contents (`[]byte`). `Unmarshal` stands for
`yaml.Unmarshal(data, &Config{})`, which allocates the entries it decodes in the
store, and `Marshal` for `yaml.Marshal(config)`, which reads them from it. The
error of `os.Getwd` is discarded by the code. -/
structure Env (σ β : Type) where
  ReadFile : σ → String → Except GoError β
  Unmarshal : Store → β → Except GoError (Store × Config)
  Marshal : Store → Config → Except GoError β
  Getwd : σ → String
  Join : String → String → String
  Dir : String → String
  MkdirAll : σ → String → σ × Option GoError
  WriteFile : σ → String → β → σ × Option GoError

/-! ## Loading and saving (lines 60-128, 187-208) -/

/-- The package-level variables `loadedConfig`, `loadedConfigOnce` (whether the
`sync.Once` has fired) and `testDontSaveConfig` (lines 63-66). -/
structure Globals where
  loadedConfig : Option Config
  loadedConfigOnce : Bool
  testDontSaveConfig : Bool
  deriving DecidableEq, Repr

/-- The package-level variables when the process starts. -/
def Globals.initial : Globals :=
  { loadedConfig := none, loadedConfigOnce := false, testDontSaveConfig := false }

/-- Go `SetTestConfig` (lines 69-73). -/
def SetTestConfig (_g : Globals) (config : Option Config) : Globals :=
  { loadedConfig := config, loadedConfigOnce := true, testDontSaveConfig := true }

/-- Go `ResetConfig` (lines 76-79). -/
def ResetConfig (g : Globals) : Globals :=
  { g with loadedConfigOnce := false, loadedConfig := none }

/-- Lines 119-127 of `LoadConfigFromPath`: set the override profile from the
context, initialise the active profile, return. -/
def LoadConfigFromPath.finish (s : Store) (ctx : Context) (loadedConfig : Config) :
    Except Panic (Store × Option Config × Option GoError) := do
  let override ← match ctx.profile with
    | none => pure none
    | some (.str p) => pure (if p ≠ "" then some p else none)
    | some .nonString => .error .typeAssertion
  let loadedConfig := { loadedConfig with OverrideProfile := override }
  let loadedConfig ← InitDevSpaceConfig loadedConfig loadedConfig.ActiveProfile
  pure (s, some loadedConfig, none)

/-- Go `LoadConfigFromPath` (lines 93-128): the store after the call and the
returned pair `(*Config, error)`. -/
def LoadConfigFromPath {σ β : Type} (env : Env σ β) (fs : σ) (s : Store) (ctx : Context)
    (path : String) : Except Panic (Store × Option Config × Option GoError) :=
  match env.ReadFile fs path with
  | .error _ =>
    LoadConfigFromPath.finish s ctx
      { OverrideProfile := none, ActiveProfile := "", Profiles := some [], Vars := some [] }
  | .ok data =>
    match env.Unmarshal s data with
    | .error err => pure (s, none, some err)
    | .ok (s, loadedConfig) =>
      let loadedConfig :=
        if loadedConfig.Profiles.isNone then { loadedConfig with Profiles := some [] }
        else loadedConfig
      let loadedConfig :=
        if loadedConfig.Vars.isNone then { loadedConfig with Vars := some [] }
        else loadedConfig
      LoadConfigFromPath.finish s ctx loadedConfig

/-- Go `LoadConfig` (lines 82-90): the package variables and store after the
call and the returned pair `(*Config, error)`. -/
def LoadConfig {σ β : Type} (env : Env σ β) (g : Globals) (fs : σ) (s : Store) (ctx : Context) :
    Except Panic (Globals × Store × Option Config × Option GoError) :=
  if g.loadedConfigOnce then pure (g, s, g.loadedConfig, none)
  else do
    let (s, config, err) ← LoadConfigFromPath env fs s ctx ConfigPath
    pure ({ g with loadedConfig := config, loadedConfigOnce := true }, s, config, err)

/-- Go `SaveConfig` (lines 188-208): the file system and the config after the
call and the returned error. -/
def SaveConfig {σ β : Type} (env : Env σ β) (g : Globals) (fs : σ) (s : Store) (config : Config) :
    Except Panic (σ × Config × Option GoError) :=
  if g.testDontSaveConfig then pure (fs, config, none)
  else
    let workdir := env.Getwd fs
    match env.Marshal s config with
    | .error err => pure (fs, config, some err)
    | .ok data => do
      let config ← InitDevSpaceConfig config config.ActiveProfile
      let configPath := env.Join workdir ConfigPath
      match env.MkdirAll fs (env.Dir configPath) with
      | (fs, some err) => pure (fs, config, some err)
      | (fs, none) =>
        let (fs, err) := env.WriteFile fs configPath data
        pure (fs, config, err)

/-! ## A concrete environment

The YAML library is outside the package. For evaluating the code on concrete
inputs, a YAML document is kept as a tree in which an absent key is `none`, and
the encoder follows the `omitempty` tags of the structs: a nil pointer, an empty
string and a map without entries are left out. Files live in an in-memory table.
The documents meant are those whose mappings list each key once and have no key
`<<`: the library reads that key as a merge key and keeps the last of a repeated
key, which this tree does not follow. No theorem below takes this encoding for
the library's; the environments built on it serve as instances. -/

/-- The YAML mapping of an `ImageCache`. -/
structure ImageDoc where
  imageConfigHash : Option String
  dockerfileHash : Option String
  contextHash : Option String
  entrypointHash : Option String
  customFilesHash : Option String
  imageName : Option String
  tag : Option String
  deriving DecidableEq, Repr

/-- The YAML mapping of a `DeploymentCache`. -/
structure DeploymentDoc where
  deploymentConfigHash : Option String
  helmOverridesHash : Option String
  helmChartHash : Option String
  kubectlManifestsHash : Option String
  deriving DecidableEq, Repr

/-- The YAML mapping of a `LastContextConfig`. -/
structure LastContextDoc where
  namespaceKey : Option String
  context : Option String
  deriving DecidableEq, Repr

/-- The YAML mapping of a `CacheConfig`; a map value `none` is YAML `null`. -/
structure ProfileDoc where
  deployments : Option (List (String × Option DeploymentDoc))
  images : Option (List (String × Option ImageDoc))
  dependencies : Option (List (String × String))
  lastContext : Option LastContextDoc
  deriving DecidableEq, Repr

/-- The YAML document of a `Config`; a map value `none` is YAML `null`. -/
structure ConfigDoc where
  lastOverrideProfile : Option String
  activeProfile : Option String
  vars : Option (List (String × String))
  profiles : Option (List (String × Option ProfileDoc))
  deriving DecidableEq, Repr

/-- The `omitempty` rule for strings. -/
def omitEmpty (s : String) : Option String := if s = "" then none else some s

/-- The `omitempty` rule for maps: nil maps and maps without entries are left out. -/
def omitEmptyMap {V W : Type} (m : GoMap V) (f : List (String × V) → List (String × W)) :
    Option (List (String × W)) :=
  match m with
  | none => none
  | some [] => none
  | some (e :: l) => some (f (e :: l))

/-- Encoding of an `ImageCache`. -/
def yamlImage (i : ImageCache) : ImageDoc :=
  { imageConfigHash := omitEmpty i.ImageConfigHash
    dockerfileHash := omitEmpty i.DockerfileHash
    contextHash := omitEmpty i.ContextHash
    entrypointHash := omitEmpty i.EntrypointHash
    customFilesHash := omitEmpty i.CustomFilesHash
    imageName := omitEmpty i.ImageName
    tag := omitEmpty i.Tag }

/-- Encoding of a `DeploymentCache`. -/
def yamlDeployment (d : DeploymentCache) : DeploymentDoc :=
  { deploymentConfigHash := omitEmpty d.DeploymentConfigHash
    helmOverridesHash := omitEmpty d.HelmOverridesHash
    helmChartHash := omitEmpty d.HelmChartHash
    kubectlManifestsHash := omitEmpty d.KubectlManifestsHash }

/-- Encoding of a `CacheConfig`, reading its entries from the store. -/
def yamlProfile (s : Store) (c : CacheConfig) : ProfileDoc :=
  { deployments := omitEmptyMap c.Deployments
      (List.map fun e => (e.1, e.2.bind fun a => s.deployments[a]?.map yamlDeployment))
    images := omitEmptyMap c.Images
      (List.map fun e => (e.1, e.2.bind fun a => s.images[a]?.map yamlImage))
    dependencies := omitEmptyMap c.Dependencies id
    lastContext := c.LastContext.map fun l =>
      { namespaceKey := omitEmpty l.Namespace, context := omitEmpty l.Context } }

/-- Encoding of a `Config`: the document `yaml.Marshal` emits. -/
def yamlMarshal (s : Store) (config : Config) : ConfigDoc :=
  { lastOverrideProfile := config.OverrideProfile
    activeProfile := omitEmpty config.ActiveProfile
    vars := omitEmptyMap config.Vars id
    profiles := omitEmptyMap config.Profiles
      (List.map fun e => (e.1, e.2.map (yamlProfile s))) }

/-- Decoding of the images of a profile: each mapping becomes a new object. -/
def decodeImages (s : Store) : List (String × Option ImageDoc) → Store × List (String × Option Addr)
  | [] => (s, [])
  | (k, none) :: rest =>
    let r := decodeImages s rest
    (r.1, (k, none) :: r.2)
  | (k, some d) :: rest =>
    let image : ImageCache :=
      { ImageConfigHash := d.imageConfigHash.getD ""
        DockerfileHash := d.dockerfileHash.getD ""
        ContextHash := d.contextHash.getD ""
        EntrypointHash := d.entrypointHash.getD ""
        CustomFilesHash := d.customFilesHash.getD ""
        ImageName := d.imageName.getD ""
        Tag := d.tag.getD "" }
    let r := decodeImages { s with images := s.images ++ [image] } rest
    (r.1, (k, some s.images.length) :: r.2)

/-- Decoding of the deployments of a profile: each mapping becomes a new object. -/
def decodeDeployments (s : Store) :
    List (String × Option DeploymentDoc) → Store × List (String × Option Addr)
  | [] => (s, [])
  | (k, none) :: rest =>
    let r := decodeDeployments s rest
    (r.1, (k, none) :: r.2)
  | (k, some d) :: rest =>
    let deployment : DeploymentCache :=
      { DeploymentConfigHash := d.deploymentConfigHash.getD ""
        HelmOverridesHash := d.helmOverridesHash.getD ""
        HelmChartHash := d.helmChartHash.getD ""
        KubectlManifestsHash := d.kubectlManifestsHash.getD "" }
    let r := decodeDeployments { s with deployments := s.deployments ++ [deployment] } rest
    (r.1, (k, some s.deployments.length) :: r.2)

/-- Decoding of a profile. An absent key leaves the field nil. -/
def decodeProfile (s : Store) (d : ProfileDoc) : Store × CacheConfig :=
  let deployments := match d.deployments with
    | none => (s, none)
    | some l => let r := decodeDeployments s l; (r.1, some r.2)
  let images := match d.images with
    | none => (deployments.1, none)
    | some l => let r := decodeImages deployments.1 l; (r.1, some r.2)
  (images.1,
    { Deployments := deployments.2
      Images := images.2
      Dependencies := d.dependencies
      LastContext := d.lastContext.map fun l =>
        { Namespace := l.namespaceKey.getD "", Context := l.context.getD "" } })

/-- Decoding of the profiles of a document; a `null` value decodes to a nil pointer. -/
def decodeProfiles (s : Store) :
    List (String × Option ProfileDoc) → Store × List (String × Option CacheConfig)
  | [] => (s, [])
  | (k, none) :: rest =>
    let r := decodeProfiles s rest
    (r.1, (k, none) :: r.2)
  | (k, some d) :: rest =>
    let c := decodeProfile s d
    let r := decodeProfiles c.1 rest
    (r.1, (k, some c.2) :: r.2)

/-- Decoding of a document into a zero `Config`: what `yaml.Unmarshal` leaves,
for a document whose mappings list each key once and have no key `<<`. -/
def yamlUnmarshal (s : Store) (d : ConfigDoc) : Store × Config :=
  let profiles := match d.profiles with
    | none => (s, none)
    | some l => let r := decodeProfiles s l; (r.1, some r.2)
  (profiles.1,
    { OverrideProfile := d.lastOverrideProfile
      ActiveProfile := d.activeProfile.getD ""
      Vars := d.vars
      Profiles := profiles.2 })

/-- The file table of the in-memory file system: path and content of each file. -/
abbrev MemFS := List (String × ConfigDoc)

/-- The in-memory environment: files hold YAML documents, reads of absent paths
fail with `notExist`, directory creation and writes succeed, and the working
directory is the root of relative paths. -/
def memEnv : Env MemFS ConfigDoc where
  ReadFile fs path :=
    match entriesGet fs path with
    | some d => .ok d
    | none => .error .notExist
  Unmarshal s d := .ok (yamlUnmarshal s d)
  Marshal s config := .ok (yamlMarshal s config)
  Getwd _ := ""
  Join dir file := if dir = "" then file else dir ++ "/" ++ file
  Dir path := String.mk ((path.data.reverse.dropWhile (· ≠ '/')).drop 1).reverse
  MkdirAll fs _ := (fs, none)
  WriteFile fs path data := (entriesSet fs path data, none)

/-- The read `*p` of an `*ImageCache`; it panics on a nil pointer. -/
def Store.readImage (s : Store) (p : Option Addr) : Except Panic ImageCache :=
  match p.bind fun a => s.images[a]? with
  | some image => .ok image
  | none => .error .nilPointerDereference

/-- The store `*p = image` through an `*ImageCache`; it panics on a nil pointer. -/
def Store.writeImage (s : Store) (p : Option Addr) (image : ImageCache) : Except Panic Store :=
  match p.bind fun a => s.images[a]? with
  | some _ => .ok { s with images := s.images.set (p.getD 0) image }
  | none => .error .nilPointerDereference

/-- The read `*p` of a `*DeploymentCache`; it panics on a nil pointer. -/
def Store.readDeployment (s : Store) (p : Option Addr) : Except Panic DeploymentCache :=
  match p.bind fun a => s.deployments[a]? with
  | some deployment => .ok deployment
  | none => .error .nilPointerDereference

/-- The nil nested maps of a profile replaced by empty ones (lines 176-184). -/
def CacheConfig.backfill (cache : CacheConfig) : CacheConfig :=
  { Deployments := some (cache.Deployments.getD [])
    Images := some (cache.Images.getD [])
    Dependencies := some (cache.Dependencies.getD [])
    LastContext := cache.LastContext }

/-! ## Environments with failures, and sequences of calls -/

/-- The in-memory environment with injected failures: a read, a decoding, a
directory creation or a write fails with the error given for it, if any. -/
def faultyEnv (read decode mkdir write : Option GoError) : Env MemFS ConfigDoc :=
  { memEnv with
    ReadFile := fun fs path =>
      match read with
      | some e => .error e
      | none => memEnv.ReadFile fs path
    Unmarshal := fun s d =>
      match decode with
      | some e => .error e
      | none => memEnv.Unmarshal s d
    MkdirAll := fun fs _ => (fs, mkdir)
    WriteFile := fun fs path data =>
      match write with
      | some e => (fs, some e)
      | none => memEnv.WriteFile fs path data }

/-- A call of one of the functions that read or write the package variables,
with its arguments and the environment it runs in. -/
inductive Call (σ β : Type) where
  | setTestConfig (config : Option Config)
  | resetConfig
  | loadConfig (env : Env σ β) (fs : σ) (s : Store) (ctx : Context)
  | saveConfig (env : Env σ β) (fs : σ) (s : Store) (config : Config)

/-- Whether the call is a `LoadConfig`. -/
def Call.isLoad {σ β : Type} : Call σ β → Bool
  | .loadConfig _ _ _ _ => true
  | _ => false

/-- The package variables after a call, whether the call returned or panicked
(as a caller that recovers from the panic finds them). `SaveConfig` assigns to
none of them; when the function passed to `loadedConfigOnce.Do` panics, the
guard has fired all the same and `loadedConfig` has not been assigned. -/
def Call.run {σ β : Type} : Call σ β → Globals → Globals
  | .setTestConfig config, g => SetTestConfig g config
  | .resetConfig, g => ResetConfig g
  | .loadConfig env fs s ctx, g =>
    match LoadConfig env g fs s ctx with
    | .ok r => r.1
    | .error _ => { g with loadedConfigOnce := true }
  | .saveConfig _ _ _ _, g => g

/-- The package variables after a sequence of calls, made one after the other. -/
def runCalls {σ β : Type} : List (Call σ β) → Globals → Globals
  | [], g => g
  | call :: rest, g => runCalls rest (call.run g)

/-! ## The content of a cache

For comparing two caches that live at different addresses: the pointers to
entries are followed, and a map is taken for its list of entries, so that a nil
map and a map without entries have the same content. -/

/-- The decoding of the mapping of an image. -/
def imageOfDoc (d : ImageDoc) : ImageCache :=
  { ImageConfigHash := d.imageConfigHash.getD ""
    DockerfileHash := d.dockerfileHash.getD ""
    ContextHash := d.contextHash.getD ""
    EntrypointHash := d.entrypointHash.getD ""
    CustomFilesHash := d.customFilesHash.getD ""
    ImageName := d.imageName.getD ""
    Tag := d.tag.getD "" }

/-- The decoding of the mapping of a deployment. -/
def deploymentOfDoc (d : DeploymentDoc) : DeploymentCache :=
  { DeploymentConfigHash := d.deploymentConfigHash.getD ""
    HelmOverridesHash := d.helmOverridesHash.getD ""
    HelmChartHash := d.helmChartHash.getD ""
    KubectlManifestsHash := d.kubectlManifestsHash.getD "" }

/-- The entries of a map of pointers, each pointer replaced by the object it
points to in `objects` (`none` for a nil pointer). -/
def viewEntries {α : Type} (objects : List α) (m : GoMap (Option Addr)) :
    List (String × Option α) :=
  (m.getD []).map fun e => (e.1, e.2.bind fun a => objects[a]?)

/-- The content of a `CacheConfig`. -/
structure ProfileView where
  deployments : List (String × Option DeploymentCache)
  images : List (String × Option ImageCache)
  dependencies : List (String × String)
  lastContext : Option LastContextConfig
  deriving DecidableEq, Repr

/-- The content of a `Config`, the override profile left out. -/
structure ConfigView where
  activeProfile : String
  vars : List (String × String)
  profiles : List (String × Option ProfileView)
  deriving DecidableEq, Repr

/-- The content of a profile in a store. -/
def viewProfile (s : Store) (c : CacheConfig) : ProfileView :=
  { deployments := viewEntries s.deployments c.Deployments
    images := viewEntries s.images c.Images
    dependencies := c.Dependencies.getD []
    lastContext := c.LastContext }

/-- The content of a config in a store. -/
def viewConfig (s : Store) (c : Config) : ConfigView :=
  { activeProfile := c.ActiveProfile
    vars := c.Vars.getD []
    profiles := (c.Profiles.getD []).map fun e => (e.1, e.2.map (viewProfile s)) }

/-- The content of the document of a profile. -/
def viewOfProfileDoc (d : ProfileDoc) : ProfileView :=
  { deployments := (d.deployments.getD []).map fun e => (e.1, e.2.map deploymentOfDoc)
    images := (d.images.getD []).map fun e => (e.1, e.2.map imageOfDoc)
    dependencies := d.dependencies.getD []
    lastContext := d.lastContext.map fun l =>
      { Namespace := l.namespaceKey.getD "", Context := l.context.getD "" } }

/-- The content of the document of a config. -/
def viewOfConfigDoc (d : ConfigDoc) : ConfigView :=
  { activeProfile := d.activeProfile.getD ""
    vars := d.vars.getD []
    profiles := (d.profiles.getD []).map fun e => (e.1, e.2.map viewOfProfileDoc) }

/-- A store with further objects allocated after those of `s`. -/
def Store.extend (s : Store) (images : List ImageCache) (deployments : List DeploymentCache) :
    Store :=
  { images := s.images ++ images, deployments := s.deployments ++ deployments }

/-! ## Profiles behind shared pointers

The embedding above holds each profile in place under its name. In Go two names
of `Profiles` can hold the same `*CacheConfig`, and a store through one is seen
through the other. For the effect of `InitDevSpaceConfig` on the other entries
the profiles are kept here on a heap, and `Profiles` maps a name to an address. -/

/-- The `CacheConfig` objects on the heap: address `a` holds the `a`-th object. -/
abbrev ProfileHeap := List CacheConfig

/-- Go struct `Config`, the `*CacheConfig` values of `Profiles` being addresses
into a `ProfileHeap` (`none` is the nil pointer). -/
structure ConfigRef where
  OverrideProfile : Option String
  ActiveProfile : String
  Vars : GoMap String
  Profiles : GoMap (Option Addr)
  deriving DecidableEq, Repr

/-- Go `InitDevSpaceConfig` (lines 170-185) on profiles behind pointers: the heap
and the config after the call. `NewCache()` allocates a new object; the stores of
lines 177-183 go through the pointer held under `configName` and change the
object it points to. An address without an object, which no Go pointer is, is
treated as nil. -/
def ConfigRef.InitDevSpaceConfig (heap : ProfileHeap) (config : ConfigRef)
    (configName : String) : Except Panic (ProfileHeap × ConfigRef) :=
  match config.Profiles.get configName with
  | none => do
    let profiles ← config.Profiles.set configName (some heap.length)
    pure (heap ++ [NewCache], { config with Profiles := profiles })
  | some none => .error .nilPointerDereference
  | some (some a) =>
    match heap[a]? with
    | none => .error .nilPointerDereference
    | some cache =>
      let cache := if cache.Deployments.isNone then { cache with Deployments := some [] } else cache
      let cache := if cache.Images.isNone then { cache with Images := some [] } else cache
      let cache :=
        if cache.Dependencies.isNone then { cache with Dependencies := some [] } else cache
      .ok (heap.set a cache, config)

/-- The profile a name leads to: `none` when the name has no entry, `some none`
when its entry is a nil pointer. -/
def ConfigRef.profile (heap : ProfileHeap) (config : ConfigRef) (name : String) :
    Option (Option CacheConfig) :=
  (config.Profiles.get name).map fun p => p.bind fun a => heap[a]?

/-- The config with each pointer replaced by the object it points to. -/
def ConfigRef.deref (heap : ProfileHeap) (config : ConfigRef) : Config :=
  { OverrideProfile := config.OverrideProfile
    ActiveProfile := config.ActiveProfile
    Vars := config.Vars
    Profiles := config.Profiles.map fun l => l.map fun e => (e.1, e.2.bind fun a => heap[a]?) }

/-! ## The content of a cache as mappings

A Go map has no order of entries: two caches have the same content when each
name leads to the same value in both, whatever the order in which their entries
are listed, a nil map and a map without entries both leading nowhere. -/

/-- The content of a `CacheConfig`: what each name leads to. -/
structure ProfileContent where
  deployments : String → Option (Option DeploymentCache)
  images : String → Option (Option ImageCache)
  dependencies : String → Option String
  lastContext : Option LastContextConfig

/-- The content of a `Config`, the override profile left out. -/
structure ConfigContent where
  activeProfile : String
  vars : String → Option String
  profiles : String → Option (Option ProfileContent)

/-- The content of a profile in a store. -/
def CacheConfig.content (s : Store) (c : CacheConfig) : ProfileContent :=
  { deployments := fun k => (c.Deployments.get k).map fun p => p.bind fun a => s.deployments[a]?
    images := fun k => (c.Images.get k).map fun p => p.bind fun a => s.images[a]?
    dependencies := fun k => c.Dependencies.get k
    lastContext := c.LastContext }

/-- The content of a config in a store. -/
def Config.content (s : Store) (c : Config) : ConfigContent :=
  { activeProfile := c.ActiveProfile
    vars := fun k => c.Vars.get k
    profiles := fun k => (c.Profiles.get k).map fun p => p.map (CacheConfig.content s) }

/-- The content of a profile without entries. -/
def ProfileContent.empty : ProfileContent :=
  { deployments := fun _ => none, images := fun _ => none, dependencies := fun _ => none,
    lastContext := none }

/-- The content with a profile under `name`: the one already there, or an empty one. -/
def ConfigContent.ensure (v : ConfigContent) (name : String) : ConfigContent :=
  { v with
    profiles := fun k =>
      if k = name then some (some ((v.profiles name).join.getD ProfileContent.empty))
      else v.profiles k }

/-! ## Maps -/

theorem entriesGet_entriesSet_self {V : Type} (l : List (String × V)) (k : String) (v : V) :
    entriesGet (entriesSet l k v) k = some v := by
  induction l with
  | nil => simp [entriesSet, entriesGet]
  | cons e rest ih =>
    obtain ⟨k', v'⟩ := e
    by_cases h : k' = k
    · simp [entriesSet, entriesGet, h]
    · simp [entriesSet, entriesGet, h, ih]

theorem entriesGet_entriesSet_of_ne {V : Type} (l : List (String × V)) (k k2 : String) (v : V)
    (h : k ≠ k2) : entriesGet (entriesSet l k v) k2 = entriesGet l k2 := by
  induction l with
  | nil => simp [entriesSet, entriesGet, h]
  | cons e rest ih =>
    obtain ⟨k', v'⟩ := e
    by_cases h' : k' = k
    · subst h'
      simp [entriesSet, entriesGet, h]
    · by_cases h2 : k' = k2
      · subst h2
        simp [entriesSet, entriesGet, h']
      · simp [entriesSet, entriesGet, h', h2, ih]

theorem entriesSet_of_entriesGet {V : Type} (l : List (String × V)) (k : String) (v : V)
    (h : entriesGet l k = some v) : entriesSet l k v = l := by
  induction l with
  | nil => simp [entriesGet] at h
  | cons e rest ih =>
    obtain ⟨k', v'⟩ := e
    by_cases h' : k' = k
    · simp [entriesGet, h'] at h
      simp [entriesSet, h', h]
    · simp [entriesGet, h'] at h
      simp [entriesSet, h', ih h]

theorem entriesSet_entriesSet {V : Type} (l : List (String × V)) (k : String) (v w : V) :
    entriesSet (entriesSet l k v) k w = entriesSet l k w := by
  induction l with
  | nil => simp [entriesSet]
  | cons e rest ih =>
    obtain ⟨k', v'⟩ := e
    by_cases h' : k' = k
    · simp [entriesSet, h']
    · simp [entriesSet, h', ih]

/-! ## `InitDevSpaceConfig` -/

theorem backfill_eq_self (cache : CacheConfig) (hd : cache.Deployments.isSome)
    (hi : cache.Images.isSome) (hp : cache.Dependencies.isSome) : cache.backfill = cache := by
  obtain ⟨d, i, p, l⟩ := cache
  cases d <;> cases i <;> cases p <;> simp_all [CacheConfig.backfill]

theorem backfill_backfill (cache : CacheConfig) : cache.backfill.backfill = cache.backfill := by
  simp [CacheConfig.backfill]

/-- On a name without an entry (and an allocated map) a new cache is inserted. -/
theorem InitDevSpaceConfig_absent (config : Config) (name : String)
    (l : List (String × Option CacheConfig)) (hl : config.Profiles = some l)
    (h : entriesGet l name = none) :
    InitDevSpaceConfig config name =
      .ok { config with Profiles := some (entriesSet l name (some NewCache)) } := by
  simp [InitDevSpaceConfig, GoMap.get, GoMap.set, hl, h, bind, Except.bind, pure, Except.pure]

/-- On a name with a non-nil entry the nil nested maps of the entry are filled. -/
theorem InitDevSpaceConfig_present (config : Config) (name : String)
    (l : List (String × Option CacheConfig)) (hl : config.Profiles = some l)
    (cache : CacheConfig) (h : entriesGet l name = some (some cache)) :
    InitDevSpaceConfig config name =
      .ok { config with Profiles := some (entriesSet l name (some cache.backfill)) } := by
  obtain ⟨d, i, p, lc⟩ := cache
  cases d <;> cases i <;> cases p <;>
    simp [InitDevSpaceConfig, GoMap.get, GoMap.set, hl, h, bind, Except.bind, pure, Except.pure,
      CacheConfig.backfill]

/-- On a name whose entry is a nil pointer the call panics. -/
theorem InitDevSpaceConfig_nil_entry (config : Config) (name : String)
    (h : config.Profiles.get name = some none) :
    InitDevSpaceConfig config name = .error .nilPointerDereference := by
  simp [InitDevSpaceConfig, h]

/-- With no `Profiles` map the call panics. -/
theorem InitDevSpaceConfig_nil_map (config : Config) (name : String)
    (h : config.Profiles = none) :
    InitDevSpaceConfig config name = .error .nilMapAssignment := by
  simp [InitDevSpaceConfig, GoMap.get, GoMap.set, h, bind, Except.bind]

/-- The outcome of `InitDevSpaceConfig` when it returns: a non-nil filled entry
under the name, every other field of the config as before. -/
theorem InitDevSpaceConfig_ok (config config' : Config) (name : String)
    (h : InitDevSpaceConfig config name = .ok config') :
    ∃ l cache, config.Profiles = some l ∧
      config' = { config with Profiles := some (entriesSet l name (some cache)) } ∧
      cache.backfill = cache ∧
      (entriesGet l name = none ∧ cache = NewCache ∨
        ∃ old, entriesGet l name = some (some old) ∧ cache = old.backfill) := by
  cases hl : config.Profiles with
  | none => rw [InitDevSpaceConfig_nil_map config name hl] at h; cases h
  | some l =>
    cases hg : entriesGet l name with
    | none =>
      rw [InitDevSpaceConfig_absent config name l hl hg] at h
      refine ⟨l, NewCache, rfl, ?_, by decide, Or.inl ⟨hg, rfl⟩⟩
      cases h; rfl
    | some e =>
      cases e with
      | none =>
        rw [InitDevSpaceConfig_nil_entry config name (by simp [GoMap.get, hl, hg])] at h
        cases h
      | some old =>
        rw [InitDevSpaceConfig_present config name l hl old hg] at h
        refine ⟨l, old.backfill, rfl, ?_, backfill_backfill old, Or.inr ⟨old, hg, rfl⟩⟩
        cases h; rfl

/-- When the map is allocated and the entry under the name is not a nil pointer,
`InitDevSpaceConfig` returns. -/
theorem InitDevSpaceConfig_returns (config : Config) (name : String)
    (hp : config.Profiles.isSome) (hn : config.Profiles.get name ≠ some none) :
    ∃ config', InitDevSpaceConfig config name = .ok config' := by
  cases hl : config.Profiles with
  | none => simp [hl] at hp
  | some l =>
    cases hg : entriesGet l name with
    | none => exact ⟨_, InitDevSpaceConfig_absent config name l hl hg⟩
    | some e =>
      cases e with
      | none => simp [GoMap.get, hl, hg] at hn
      | some old => exact ⟨_, InitDevSpaceConfig_present config name l hl old hg⟩

/-! ## `GetActive` -/

/-- `GetActive` initialises the profile named by the override, or by
`ActiveProfile` when there is no override, and returns what the map then holds. -/
theorem GetActive_eq (config : Config) :
    config.GetActive =
      (InitDevSpaceConfig config (config.OverrideProfile.getD config.ActiveProfile)).map
        fun c => (c, (c.Profiles.get (config.OverrideProfile.getD config.ActiveProfile)).join) := by
  cases h : config.OverrideProfile <;>
    cases hi : InitDevSpaceConfig config (config.OverrideProfile.getD config.ActiveProfile) <;>
    simp_all [Config.GetActive, bind, Except.bind, pure, Except.pure, Except.map]

/-- When `GetActive` can return at all, it returns a filled cache stored under the
effective name. -/
theorem GetActive_ok (config : Config) (hp : config.Profiles.isSome)
    (hn : config.Profiles.get (config.OverrideProfile.getD config.ActiveProfile) ≠ some none) :
    ∃ config' cache, config.GetActive = .ok (config', some cache) ∧
      config'.Profiles.get (config.OverrideProfile.getD config.ActiveProfile) = some (some cache) ∧
      cache.backfill = cache := by
  obtain ⟨config', h⟩ := InitDevSpaceConfig_returns config _ hp hn
  obtain ⟨l, cache, _, hc, hb, _⟩ := InitDevSpaceConfig_ok config config' _ h
  have hget : config'.Profiles.get (config.OverrideProfile.getD config.ActiveProfile)
      = some (some cache) := by
    rw [hc]; simp [GoMap.get, entriesGet_entriesSet_self]
  refine ⟨config', cache, ?_, hget, hb⟩
  rw [GetActive_eq, h]
  simp [Except.map, hget]

/-- C1, as stated, fails: with a non-nil `Profiles` map whose entry for the
active profile is a nil pointer, `GetActive` panics instead of returning an entry. -/
theorem GetActive_nil_active_entry_panics :
    (Config.mk none "default" (some []) (some [("default", none)])).Profiles.isSome = true ∧
    (Config.mk none "default" (some []) (some [("default", none)])).GetActive
      = .error .nilPointerDereference := by
  decide

/-- C1, amended: for every config with a non-nil `Profiles` map whose entry under
the effective profile name is absent or a non-nil pointer, `GetActive` returns the
entry stored in `Profiles` after the call under the override name when
`OverrideProfile` is set and under `ActiveProfile` when it is not. -/
theorem GetActive_returns_effective_profile (config : Config)
    (hp : config.Profiles.isSome)
    (hn : config.Profiles.get (config.OverrideProfile.getD config.ActiveProfile) ≠ some none) :
    ∃ config' cache, config.GetActive = .ok (config', some cache) ∧
      (∀ override, config.OverrideProfile = some override →
        config'.Profiles.get override = some (some cache)) ∧
      (config.OverrideProfile = none →
        config'.Profiles.get config.ActiveProfile = some (some cache)) := by
  obtain ⟨config', cache, h, hget, _⟩ := GetActive_ok config hp hn
  refine ⟨config', cache, h, ?_, ?_⟩
  · intro override ho
    simpa [ho] using hget
  · intro ho
    simpa [ho] using hget

/-- C1, the instance of the claim: with override "staging" and active profile
"default", the "staging" entry is returned and not the "default" one. -/
theorem GetActive_returns_effective_profile_witness :
    (∃ config' cache,
      (Config.mk (some "staging") "default" (some [])
        (some [("default", some ⟨some [], some [], some [("lib", "v1")], none⟩),
          ("staging", some ⟨none, some [], none, some ⟨"ns", "ctx"⟩⟩)])).GetActive
        = .ok (config', some cache) ∧
      (∀ override, some "staging" = some override →
        config'.Profiles.get override = some (some cache)) ∧
      ((some "staging" : Option String) = none →
        config'.Profiles.get "default" = some (some cache))) ∧
    ((Config.mk (some "staging") "default" (some [])
        (some [("default", some ⟨some [], some [], some [("lib", "v1")], none⟩),
          ("staging", some ⟨none, some [], none, some ⟨"ns", "ctx"⟩⟩)])).GetActive).map Prod.snd
      = .ok (some ⟨some [], some [], some [], some ⟨"ns", "ctx"⟩⟩) :=
  ⟨GetActive_returns_effective_profile
    (Config.mk (some "staging") "default" (some [])
      (some [("default", some ⟨some [], some [], some [("lib", "v1")], none⟩),
        ("staging", some ⟨none, some [], none, some ⟨"ns", "ctx"⟩⟩)]))
    (by decide) (by decide), by decide⟩

/-- C2, as stated, fails: the effective profile "staging" is present in a non-nil
`Profiles` map as a nil pointer, and `GetActive` panics, returning no cache. -/
theorem GetActive_nil_override_entry_panics :
    (Config.mk (some "staging") "default" none
      (some [("default", some NewCache), ("staging", none)])).Profiles.isSome = true ∧
    (Config.mk (some "staging") "default" none
      (some [("default", some NewCache), ("staging", none)])).GetActive
      = .error .nilPointerDereference := by
  decide

/-- C2, amended: for every config with a non-nil `Profiles` map whose effective
profile is absent, or present as a non-nil pointer with any of its three nested
maps nil, `GetActive` returns a cache whose `Deployments`, `Images` and
`Dependencies` are all non-nil. -/
theorem GetActive_nested_maps_non_nil (config : Config)
    (hp : config.Profiles.isSome)
    (hn : config.Profiles.get (config.OverrideProfile.getD config.ActiveProfile) ≠ some none) :
    ∃ config' cache, config.GetActive = .ok (config', some cache) ∧
      cache.Deployments.isSome ∧ cache.Images.isSome ∧ cache.Dependencies.isSome := by
  obtain ⟨config', cache, h, _, hb⟩ := GetActive_ok config hp hn
  refine ⟨config', cache, h, ?_⟩
  rw [← hb]
  simp [CacheConfig.backfill]

/-- C2, an instance: the effective profile is present with all three maps nil. -/
theorem GetActive_nested_maps_non_nil_witness :
    ∃ config' cache,
      (Config.mk none "default" none (some [("default", some ⟨none, none, none, none⟩)])).GetActive
        = .ok (config', some cache) ∧
      cache.Deployments.isSome ∧ cache.Images.isSome ∧ cache.Dependencies.isSome :=
  GetActive_nested_maps_non_nil
    (Config.mk none "default" none (some [("default", some ⟨none, none, none, none⟩)]))
    (by decide) (by decide)

/-! ## Idempotence of `InitDevSpaceConfig` -/

/-- A config that `InitDevSpaceConfig` has returned is left as it is by a second call. -/
theorem InitDevSpaceConfig_again (config config' : Config) (name : String)
    (h : InitDevSpaceConfig config name = .ok config') :
    InitDevSpaceConfig config' name = .ok config' := by
  obtain ⟨l, cache, _, hc, hb, _⟩ := InitDevSpaceConfig_ok config config' name h
  have hp : config'.Profiles = some (entriesSet l name (some cache)) := by rw [hc]
  rw [InitDevSpaceConfig_present config' name _ hp cache (entriesGet_entriesSet_self l name _),
    hb, entriesSet_entriesSet, ← hp]

/-- C7: for every config with a non-nil `Profiles` map and every profile name,
`InitDevSpaceConfig` is idempotent: two calls in a row have the outcome of one
call, the second call returning the config of the first unchanged; and on a
config whose entry for the name has its three nested maps non-nil the call
changes nothing. -/
theorem InitDevSpaceConfig_idempotent (config : Config) (name : String)
    (hp : config.Profiles.isSome) :
    ((InitDevSpaceConfig config name >>= fun c => InitDevSpaceConfig c name)
      = InitDevSpaceConfig config name) ∧
    (config.Profiles.get name ≠ some none →
      ∃ c, InitDevSpaceConfig config name = .ok c ∧ InitDevSpaceConfig c name = .ok c) ∧
    (∀ cache, config.Profiles.get name = some (some cache) →
      cache.Deployments.isSome → cache.Images.isSome → cache.Dependencies.isSome →
      InitDevSpaceConfig config name = .ok config) := by
  refine ⟨?_, ?_, ?_⟩
  · cases h : InitDevSpaceConfig config name with
    | error e => rfl
    | ok c => exact InitDevSpaceConfig_again config c name h
  · intro hn
    obtain ⟨c, h⟩ := InitDevSpaceConfig_returns config name hp hn
    exact ⟨c, h, InitDevSpaceConfig_again config c name h⟩
  · intro cache hc hd hi hdep
    cases hl : config.Profiles with
    | none => simp [hl] at hp
    | some l =>
      have hg : entriesGet l name = some (some cache) := by simpa [GoMap.get, hl] using hc
      rw [InitDevSpaceConfig_present config name l hl cache hg,
        backfill_eq_self cache hd hi hdep, entriesSet_of_entriesGet l name _ hg, ← hl]

/-- C7, an instance: a profile with two nil nested maps, initialised twice. -/
theorem InitDevSpaceConfig_idempotent_witness :
    ((InitDevSpaceConfig
        (Config.mk none "default" (some []) (some [("default", some ⟨none, some [], none, none⟩)]))
        "default" >>= fun c => InitDevSpaceConfig c "default")
      = InitDevSpaceConfig
        (Config.mk none "default" (some []) (some [("default", some ⟨none, some [], none, none⟩)]))
        "default") ∧
    ((Config.mk none "default" (some [])
        (some [("default", some ⟨none, some [], none, none⟩)])).Profiles.get "default" ≠ some none →
      ∃ c, InitDevSpaceConfig
          (Config.mk none "default" (some [])
            (some [("default", some ⟨none, some [], none, none⟩)])) "default" = .ok c ∧
        InitDevSpaceConfig c "default" = .ok c) ∧
    (∀ cache, (Config.mk none "default" (some [])
        (some [("default", some ⟨none, some [], none, none⟩)])).Profiles.get "default"
          = some (some cache) →
      cache.Deployments.isSome → cache.Images.isSome → cache.Dependencies.isSome →
      InitDevSpaceConfig
        (Config.mk none "default" (some []) (some [("default", some ⟨none, some [], none, none⟩)]))
        "default"
        = .ok (Config.mk none "default" (some [])
          (some [("default", some ⟨none, some [], none, none⟩)]))) :=
  InitDevSpaceConfig_idempotent
    (Config.mk none "default" (some []) (some [("default", some ⟨none, some [], none, none⟩)]))
    "default" (by decide)

/-! ## The accessors `GetImageCache` and `GetDeploymentCache` -/

theorem GetImageCache_present (s : Store) (cache : CacheConfig) (name : String)
    (p : Option Addr) (h : cache.Images.get name = some p) :
    cache.GetImageCache s name = .ok (s, cache, p) := by
  simp [CacheConfig.GetImageCache, h, bind, Except.bind, pure, Except.pure]

theorem GetImageCache_absent (s : Store) (cache : CacheConfig) (name : String)
    (l : List (String × Option Addr)) (hl : cache.Images = some l)
    (h : entriesGet l name = none) :
    cache.GetImageCache s name =
      .ok ({ s with images := s.images ++ [ImageCache.zero] },
        { cache with Images := some (entriesSet l name (some s.images.length)) },
        some s.images.length) := by
  simp [CacheConfig.GetImageCache, GoMap.get, GoMap.set, hl, h, bind, Except.bind, pure,
    Except.pure, entriesGet_entriesSet_self]

theorem GetImageCache_nil_map (s : Store) (cache : CacheConfig) (name : String)
    (h : cache.Images = none) :
    cache.GetImageCache s name = .error .nilMapAssignment := by
  simp [CacheConfig.GetImageCache, GoMap.get, GoMap.set, h, bind, Except.bind]

theorem GetDeploymentCache_present (s : Store) (cache : CacheConfig) (name : String)
    (p : Option Addr) (h : cache.Deployments.get name = some p) :
    cache.GetDeploymentCache s name = .ok (s, cache, p) := by
  simp [CacheConfig.GetDeploymentCache, h, bind, Except.bind, pure, Except.pure]

theorem GetDeploymentCache_absent (s : Store) (cache : CacheConfig) (name : String)
    (l : List (String × Option Addr)) (hl : cache.Deployments = some l)
    (h : entriesGet l name = none) :
    cache.GetDeploymentCache s name =
      .ok ({ s with deployments := s.deployments ++ [DeploymentCache.zero] },
        { cache with Deployments := some (entriesSet l name (some s.deployments.length)) },
        some s.deployments.length) := by
  simp [CacheConfig.GetDeploymentCache, GoMap.get, GoMap.set, hl, h, bind, Except.bind, pure,
    Except.pure, entriesGet_entriesSet_self]

theorem GetDeploymentCache_nil_map (s : Store) (cache : CacheConfig) (name : String)
    (h : cache.Deployments = none) :
    cache.GetDeploymentCache s name = .error .nilMapAssignment := by
  simp [CacheConfig.GetDeploymentCache, GoMap.get, GoMap.set, h, bind, Except.bind]

/-- A value stored through a pointer is the value read through it. -/
theorem readImage_writeImage (s s2 : Store) (p : Option Addr) (image : ImageCache)
    (h : s.writeImage p image = .ok s2) : s2.readImage p = .ok image := by
  cases p with
  | none => simp [Store.writeImage] at h
  | some a =>
    cases hg : s.images[a]? with
    | none => simp [Store.writeImage, hg] at h
    | some old =>
      have hlt : a < s.images.length := (List.getElem?_eq_some.mp hg).1
      simp [Store.writeImage, hg] at h
      subst h
      simp [Store.readImage, hlt]

/-- After a call the name has an entry in `Images`: the pointer returned. -/
theorem GetImageCache_ok (s : Store) (cache : CacheConfig) (name : String)
    (h : cache.Images.isSome) :
    ∃ s1 cache1 p, cache.GetImageCache s name = .ok (s1, cache1, p) ∧
      cache1.Images.get name = some p := by
  cases hl : cache.Images with
  | none => simp [hl] at h
  | some l =>
    cases hg : entriesGet l name with
    | none =>
      refine ⟨_, _, _, GetImageCache_absent s cache name l hl hg, ?_⟩
      simp [GoMap.get, entriesGet_entriesSet_self]
    | some p =>
      have hget : cache.Images.get name = some p := by simp [GoMap.get, hl, hg]
      exact ⟨s, cache, p, GetImageCache_present s cache name p hget, hget⟩

/-- C6: for every cache with a non-nil `Images` map and every name, the second of
two calls of `GetImageCache` returns the very pointer the first call returned or
inserted and changes neither the map nor the store; that pointer is the one held
under the name in `Images`; and a value stored through the first pointer is read
through the second and through `Images[name]`, also by a call made after the store. -/
theorem GetImageCache_twice_same_entry (s : Store) (cache : CacheConfig) (name : String)
    (h : cache.Images.isSome) :
    ∃ s1 cache1 p1,
      cache.GetImageCache s name = .ok (s1, cache1, p1) ∧
      cache1.GetImageCache s1 name = .ok (s1, cache1, p1) ∧
      cache1.Images.get name = some p1 ∧
      (cache.Images.get name = none → ∀ image, ∃ s2, s1.writeImage p1 image = .ok s2) ∧
      ∀ image s2, s1.writeImage p1 image = .ok s2 →
        ∃ p2, cache1.GetImageCache s2 name = .ok (s2, cache1, p2) ∧ p2 = p1 ∧
          s2.readImage p2 = .ok image ∧
          s2.readImage (cache1.Images.get name).join = .ok image := by
  obtain ⟨s1, cache1, p1, h1, hget⟩ := GetImageCache_ok s cache name h
  refine ⟨s1, cache1, p1, h1, GetImageCache_present s1 cache1 name p1 hget, hget, ?_, ?_⟩
  · intro hnone image
    cases hl : cache.Images with
    | none => simp [hl] at h
    | some l =>
      have hg : entriesGet l name = none := by simpa [GoMap.get, hl] using hnone
      rw [GetImageCache_absent s cache name l hl hg] at h1
      cases h1
      simp [Store.writeImage]
  · intro image s2 hw
    refine ⟨p1, GetImageCache_present s2 cache1 name p1 hget, rfl,
      readImage_writeImage s1 s2 p1 image hw, ?_⟩
    rw [hget]
    exact readImage_writeImage s1 s2 p1 image hw

/-- C6, an instance: the name "web" is looked up twice in a cache that has "api" only. -/
theorem GetImageCache_twice_same_entry_witness :
    ∃ s1 cache1 p1,
      (CacheConfig.mk none (some [("api", some 0)]) none none).GetImageCache
        ⟨[ImageCache.zero], []⟩ "web" = .ok (s1, cache1, p1) ∧
      cache1.GetImageCache s1 "web" = .ok (s1, cache1, p1) ∧
      cache1.Images.get "web" = some p1 ∧
      ((CacheConfig.mk none (some [("api", some 0)]) none none).Images.get "web" = none →
        ∀ image, ∃ s2, s1.writeImage p1 image = .ok s2) ∧
      ∀ image s2, s1.writeImage p1 image = .ok s2 →
        ∃ p2, cache1.GetImageCache s2 "web" = .ok (s2, cache1, p2) ∧ p2 = p1 ∧
          s2.readImage p2 = .ok image ∧
          s2.readImage (cache1.Images.get "web").join = .ok image :=
  GetImageCache_twice_same_entry ⟨[ImageCache.zero], []⟩
    (CacheConfig.mk none (some [("api", some 0)]) none none) "web" (by decide)

/-- C8, as stated, fails: on a cache whose `Images` and `Deployments` maps are nil
(a profile decoded from a file that omits them) both accessors panic on the
assignment into the nil map. -/
theorem accessors_panic_on_nil_maps :
    (CacheConfig.mk none none none none).GetImageCache ⟨[], []⟩ "web"
      = .error .nilMapAssignment ∧
    (CacheConfig.mk none none none none).GetDeploymentCache ⟨[], []⟩ "api"
      = .error .nilMapAssignment := by
  decide

/-- C8, amended: on a cache whose `Images` map is non-nil `GetImageCache`
completes without a panic for every name and returns the pointer then held under
the name, which on a miss is a new entry with every field empty; likewise
`GetDeploymentCache` on a cache whose `Deployments` map is non-nil. On a nil map
each of them panics, for every name. -/
theorem accessors_complete_on_non_nil_maps (s : Store) (cache : CacheConfig) (name : String) :
    (cache.Images.isSome →
      ∃ s1 cache1 p, cache.GetImageCache s name = .ok (s1, cache1, p) ∧
        cache1.Images.get name = some p ∧
        (cache.Images.get name = none →
          p = some s.images.length ∧ s1.images = s.images ++ [ImageCache.zero] ∧
          s1.readImage p = .ok ImageCache.zero)) ∧
    (cache.Deployments.isSome →
      ∃ s1 cache1 p, cache.GetDeploymentCache s name = .ok (s1, cache1, p) ∧
        cache1.Deployments.get name = some p ∧
        (cache.Deployments.get name = none →
          p = some s.deployments.length ∧
          s1.deployments = s.deployments ++ [DeploymentCache.zero] ∧
          s1.readDeployment p = .ok DeploymentCache.zero)) ∧
    (cache.Images = none → cache.GetImageCache s name = .error .nilMapAssignment) ∧
    (cache.Deployments = none →
      cache.GetDeploymentCache s name = .error .nilMapAssignment) := by
  refine ⟨?_, ?_, GetImageCache_nil_map s cache name, GetDeploymentCache_nil_map s cache name⟩
  · intro h
    cases hl : cache.Images with
    | none => simp [hl] at h
    | some l =>
      cases hg : entriesGet l name with
      | none =>
        refine ⟨_, _, _, GetImageCache_absent s cache name l hl hg, ?_, ?_⟩
        · simp [GoMap.get, entriesGet_entriesSet_self]
        · intro _
          simp [Store.readImage]
      | some p =>
        have hget : GoMap.get (some l) name = some p := by simp [GoMap.get, hg]
        refine ⟨s, cache, p, GetImageCache_present s cache name p (by rw [hl]; exact hget), ?_, ?_⟩
        · rw [hl]; exact hget
        · intro hnone
          rw [hget] at hnone
          cases hnone
  · intro h
    cases hl : cache.Deployments with
    | none => simp [hl] at h
    | some l =>
      cases hg : entriesGet l name with
      | none =>
        refine ⟨_, _, _, GetDeploymentCache_absent s cache name l hl hg, ?_, ?_⟩
        · simp [GoMap.get, entriesGet_entriesSet_self]
        · intro _
          simp [Store.readDeployment]
      | some p =>
        have hget : GoMap.get (some l) name = some p := by simp [GoMap.get, hg]
        refine ⟨s, cache, p,
          GetDeploymentCache_present s cache name p (by rw [hl]; exact hget), ?_, ?_⟩
        · rw [hl]; exact hget
        · intro hnone
          rw [hget] at hnone
          cases hnone

/-- C8, an instance: a freshly made cache, asked for an image and a deployment. -/
theorem accessors_complete_on_non_nil_maps_witness :
    (∃ s1 cache1 p, NewCache.GetImageCache ⟨[], []⟩ "web" = .ok (s1, cache1, p) ∧
      cache1.Images.get "web" = some p ∧
      (NewCache.Images.get "web" = none →
        p = some (Store.mk [] []).images.length ∧
        s1.images = (Store.mk [] []).images ++ [ImageCache.zero] ∧
        s1.readImage p = .ok ImageCache.zero)) ∧
    (∃ s1 cache1 p, NewCache.GetDeploymentCache ⟨[], []⟩ "api" = .ok (s1, cache1, p) ∧
      cache1.Deployments.get "api" = some p ∧
      (NewCache.Deployments.get "api" = none →
        p = some (Store.mk [] []).deployments.length ∧
        s1.deployments = (Store.mk [] []).deployments ++ [DeploymentCache.zero] ∧
        s1.readDeployment p = .ok DeploymentCache.zero)) :=
  ⟨(accessors_complete_on_non_nil_maps ⟨[], []⟩ NewCache "web").1 (by decide),
    (accessors_complete_on_non_nil_maps ⟨[], []⟩ NewCache "api").2.1 (by decide)⟩

/-! ## `LoadConfigFromPath` -/

/-- The last lines of `LoadConfigFromPath` when the context holds no profile, or
an empty one: the override is cleared. -/
theorem finish_no_override (s : Store) (ctx : Context) (c : Config)
    (h : ctx.profile = none ∨ ctx.profile = some (.str "")) :
    LoadConfigFromPath.finish s ctx c =
      (InitDevSpaceConfig { c with OverrideProfile := none } c.ActiveProfile).map
        fun cfg => (s, some cfg, none) := by
  cases hi : InitDevSpaceConfig { c with OverrideProfile := none } c.ActiveProfile <;>
    rcases h with h | h <;>
    simp [LoadConfigFromPath.finish, h, hi, bind, Except.bind, pure, Except.pure, Except.map]

/-- The last lines of `LoadConfigFromPath` when the context holds a non-empty
profile name: the override is set to it. -/
theorem finish_override (s : Store) (ctx : Context) (c : Config) (p : String)
    (h : ctx.profile = some (.str p)) (hp : p ≠ "") :
    LoadConfigFromPath.finish s ctx c =
      (InitDevSpaceConfig { c with OverrideProfile := some p } c.ActiveProfile).map
        fun cfg => (s, some cfg, none) := by
  cases hi : InitDevSpaceConfig { c with OverrideProfile := some p } c.ActiveProfile <;>
    simp [LoadConfigFromPath.finish, h, hp, hi, bind, Except.bind, pure, Except.pure, Except.map]

/-- The last lines of `LoadConfigFromPath` when the context holds a value that
is not a string: the type assertion panics. -/
theorem finish_non_string (s : Store) (ctx : Context) (c : Config)
    (h : ctx.profile = some .nonString) :
    LoadConfigFromPath.finish s ctx c = .error .typeAssertion := by
  simp [LoadConfigFromPath.finish, h, bind, Except.bind]

/-- What the last lines of `LoadConfigFromPath` return when they return: the
override is the non-empty string of the context, if there is one, and the config
is the one `InitDevSpaceConfig` leaves for `ActiveProfile`. -/
theorem finish_ok (s : Store) (ctx : Context) (c : Config)
    (r : Store × Option Config × Option GoError)
    (h : LoadConfigFromPath.finish s ctx c = .ok r) :
    ∃ ov cfg, r = (s, some cfg, none) ∧
      (∀ v, ov = some v ↔ ctx.profile = some (.str v) ∧ v ≠ "") ∧
      InitDevSpaceConfig { c with OverrideProfile := ov } c.ActiveProfile = .ok cfg := by
  have key : ∀ ov, (InitDevSpaceConfig { c with OverrideProfile := ov } c.ActiveProfile).map
      (fun cfg => (s, some cfg, (none : Option GoError))) = .ok r →
      ∃ cfg, r = (s, some cfg, none) ∧
        InitDevSpaceConfig { c with OverrideProfile := ov } c.ActiveProfile = .ok cfg := by
    intro ov hm
    cases hi : InitDevSpaceConfig { c with OverrideProfile := ov } c.ActiveProfile with
    | error e => simp [hi, Except.map] at hm
    | ok cfg =>
      simp [hi, Except.map] at hm
      exact ⟨cfg, hm.symm, rfl⟩
  cases hc : ctx.profile with
  | none =>
    rw [finish_no_override s ctx c (Or.inl hc)] at h
    obtain ⟨cfg, hr, hi⟩ := key none h
    exact ⟨none, cfg, hr, by simp, hi⟩
  | some value =>
    cases value with
    | nonString => rw [finish_non_string s ctx c hc] at h; cases h
    | str p =>
      by_cases hp : p = ""
      · subst hp
        rw [finish_no_override s ctx c (Or.inr hc)] at h
        obtain ⟨cfg, hr, hi⟩ := key none h
        refine ⟨none, cfg, hr, ?_, hi⟩
        intro v
        constructor
        · intro hv; cases hv
        · rintro ⟨hv, hne⟩
          simp only [Option.some.injEq, CtxValue.str.injEq] at hv
          exact absurd hv.symm hne
      · rw [finish_override s ctx c p hc hp] at h
        obtain ⟨cfg, hr, hi⟩ := key (some p) h
        refine ⟨some p, cfg, hr, ?_, hi⟩
        intro v
        constructor
        · intro hv
          simp only [Option.some.injEq] at hv
          subst hv
          exact ⟨rfl, hp⟩
        · rintro ⟨hv, _⟩
          simp only [Option.some.injEq, CtxValue.str.injEq] at hv
          rw [hv]

/-- When the read fails, the config is built from scratch. -/
theorem LoadConfigFromPath_read_error {σ β : Type} (env : Env σ β) (fs : σ) (s : Store)
    (ctx : Context) (path : String) (e : GoError) (h : env.ReadFile fs path = .error e) :
    LoadConfigFromPath env fs s ctx path =
      LoadConfigFromPath.finish s ctx
        { OverrideProfile := none, ActiveProfile := "", Profiles := some [], Vars := some [] } := by
  simp [LoadConfigFromPath, h]

/-- When decoding fails, the error is returned and no config. -/
theorem LoadConfigFromPath_decode_error {σ β : Type} (env : Env σ β) (fs : σ) (s : Store)
    (ctx : Context) (path : String) (data : β) (err : GoError)
    (h : env.ReadFile fs path = .ok data) (hu : env.Unmarshal s data = .error err) :
    LoadConfigFromPath env fs s ctx path = .ok (s, none, some err) := by
  simp [LoadConfigFromPath, h, hu, pure, Except.pure]

/-- When decoding succeeds, nil `Profiles` and `Vars` are replaced by empty maps. -/
theorem LoadConfigFromPath_decoded {σ β : Type} (env : Env σ β) (fs : σ) (s s0 : Store)
    (ctx : Context) (path : String) (data : β) (c : Config)
    (h : env.ReadFile fs path = .ok data) (hu : env.Unmarshal s data = .ok (s0, c)) :
    LoadConfigFromPath env fs s ctx path =
      LoadConfigFromPath.finish s0 ctx
        { c with Profiles := some (c.Profiles.getD []), Vars := some (c.Vars.getD []) } := by
  obtain ⟨o, a, v, pr⟩ := c
  cases v <;> cases pr <;> simp [LoadConfigFromPath, h, hu]

/-- A successful `LoadConfigFromPath` went through the last lines with a config
whose `Profiles` and `Vars` maps are non-nil. -/
theorem LoadConfigFromPath_ok {σ β : Type} (env : Env σ β) (fs : σ) (s s' : Store)
    (ctx : Context) (path : String) (cfg : Config)
    (h : LoadConfigFromPath env fs s ctx path = .ok (s', some cfg, none)) :
    ∃ s0 c, c.Profiles.isSome ∧ c.Vars.isSome ∧
      LoadConfigFromPath.finish s0 ctx c = .ok (s', some cfg, none) := by
  cases hr : env.ReadFile fs path with
  | error e =>
    rw [LoadConfigFromPath_read_error env fs s ctx path e hr] at h
    exact ⟨s, _, by simp, by simp, h⟩
  | ok data =>
    cases hu : env.Unmarshal s data with
    | error e =>
      rw [LoadConfigFromPath_decode_error env fs s ctx path data e hr hu] at h
      simp at h
    | ok r =>
      obtain ⟨s0, c⟩ := r
      rw [LoadConfigFromPath_decoded env fs s s0 ctx path data c hr hu] at h
      exact ⟨s0, _, by simp, by simp, h⟩

/-- The config a successful `LoadConfigFromPath` returns: non-nil `Profiles` and
`Vars`, the override of the context, and a filled entry under `ActiveProfile`. -/
theorem LoadConfigFromPath_result {σ β : Type} (env : Env σ β) (fs : σ) (s s' : Store)
    (ctx : Context) (path : String) (cfg : Config)
    (h : LoadConfigFromPath env fs s ctx path = .ok (s', some cfg, none)) :
    cfg.Profiles.isSome ∧ cfg.Vars.isSome ∧
      (∀ v, cfg.OverrideProfile = some v ↔ ctx.profile = some (.str v) ∧ v ≠ "") ∧
      ∃ cache, cfg.Profiles.get cfg.ActiveProfile = some (some cache) ∧
        cache.backfill = cache := by
  obtain ⟨s0, c, hp, hv, hf⟩ := LoadConfigFromPath_ok env fs s s' ctx path cfg h
  obtain ⟨ov, cfg', hr, hov, hi⟩ := finish_ok s0 ctx c _ hf
  have hcfg : cfg' = cfg := by
    simp only [Prod.mk.injEq, Option.some.injEq] at hr
    exact hr.2.1.symm
  subst hcfg
  obtain ⟨l, cache, _, hc, hb, _⟩ := InitDevSpaceConfig_ok _ _ _ hi
  rw [hc]
  refine ⟨rfl, hv, hov, cache, ?_, hb⟩
  simp [GoMap.get, entriesGet_entriesSet_self]

/-- C3, as stated, fails: loading a path at which no file exists returns a cache
whose `Profiles` map is not empty, as it holds an entry under the empty name; and
with a context whose profile value is not a string the load panics. -/
theorem missing_file_load_has_profile_entry :
    memEnv.ReadFile [] "missing.yaml" = .error .notExist ∧
    LoadConfigFromPath memEnv [] ⟨[], []⟩ ⟨none⟩ "missing.yaml"
      = .ok (⟨[], []⟩, some ⟨none, "", some [], some [("", some NewCache)]⟩, none) ∧
    (Config.mk none "" (some []) (some [("", some NewCache)])).Profiles.get ""
      = some (some NewCache) ∧
    LoadConfigFromPath memEnv [] ⟨[], []⟩ ⟨some .nonString⟩ "missing.yaml"
      = .error .typeAssertion := by
  decide

/-- C3, amended: for every path whose read fails (in particular one at which no
file exists) and every context whose profile value is absent or a string,
`LoadConfigFromPath` returns without error a cache whose `Profiles` map holds
exactly one entry, a new empty cache under the empty name, whose `Vars` map is
empty and whose `ActiveProfile` is the empty string. -/
theorem LoadConfigFromPath_missing_file {σ β : Type} (env : Env σ β) (fs : σ) (s : Store)
    (ctx : Context) (path : String) (e : GoError)
    (h : env.ReadFile fs path = .error e) (hc : ctx.profile ≠ some .nonString) :
    ∃ cfg, LoadConfigFromPath env fs s ctx path = .ok (s, some cfg, none) ∧
      cfg.Profiles = some [("", some NewCache)] ∧ cfg.Vars = some [] ∧
      cfg.ActiveProfile = "" := by
  rw [LoadConfigFromPath_read_error env fs s ctx path e h]
  have hinit : ∀ ov, InitDevSpaceConfig
      { OverrideProfile := ov, ActiveProfile := "", Profiles := some [], Vars := some [] } ""
      = .ok { OverrideProfile := ov, ActiveProfile := "", Vars := some [],
              Profiles := some [("", some NewCache)] } := by
    intro ov
    rw [InitDevSpaceConfig_absent _ "" [] rfl rfl]
    rfl
  cases hp : ctx.profile with
  | none =>
    rw [finish_no_override s ctx _ (Or.inl hp), hinit]
    exact ⟨_, rfl, rfl, rfl, rfl⟩
  | some value =>
    cases value with
    | nonString => exact absurd hp hc
    | str p =>
      by_cases hpe : p = ""
      · subst hpe
        rw [finish_no_override s ctx _ (Or.inr hp), hinit]
        exact ⟨_, rfl, rfl, rfl, rfl⟩
      · rw [finish_override s ctx _ p hp hpe, hinit]
        exact ⟨_, rfl, rfl, rfl, rfl⟩

/-- C3, an instance: no file in the file system, a context that names "staging". -/
theorem LoadConfigFromPath_missing_file_witness :
    ∃ cfg, LoadConfigFromPath memEnv [] ⟨[], []⟩ ⟨some (.str "staging")⟩ ConfigPath
        = .ok (⟨[], []⟩, some cfg, none) ∧
      cfg.Profiles = some [("", some NewCache)] ∧ cfg.Vars = some [] ∧
      cfg.ActiveProfile = "" :=
  LoadConfigFromPath_missing_file memEnv [] ⟨[], []⟩ ⟨some (.str "staging")⟩ ConfigPath
    .notExist (by decide) (by decide)

/-- C4, as stated, fails: the file names "default" as active profile, the context
carries the override "staging", and the loaded cache has the override set but no
entry under "staging": only `ActiveProfile` was initialised. -/
theorem LoadConfigFromPath_override_not_initialized :
    LoadConfigFromPath memEnv
        [(ConfigPath, ⟨none, some "default", none, none⟩)] ⟨[], []⟩
        ⟨some (.str "staging")⟩ ConfigPath
      = .ok (⟨[], []⟩,
          some ⟨some "staging", "default", some [], some [("default", some NewCache)]⟩, none) ∧
    (Config.mk (some "staging") "default" (some [])
        (some [("default", some NewCache)])).Profiles.get "staging" = none := by
  decide

/-- C4, amended: for every successful `LoadConfigFromPath`, the `Profiles` map of
the returned cache holds under `ActiveProfile` a non-nil entry whose three nested
maps are non-nil; this is the resolved active profile whenever the context
carries no non-empty override. -/
theorem LoadConfigFromPath_active_profile_initialized {σ β : Type} (env : Env σ β) (fs : σ)
    (s s' : Store) (ctx : Context) (path : String) (cfg : Config)
    (h : LoadConfigFromPath env fs s ctx path = .ok (s', some cfg, none)) :
    ∃ cache, cfg.Profiles.get cfg.ActiveProfile = some (some cache) ∧
      cache.Deployments.isSome ∧ cache.Images.isSome ∧ cache.Dependencies.isSome ∧
      ((∀ v, ctx.profile = some (.str v) → v = "") →
        cfg.Profiles.get (cfg.OverrideProfile.getD cfg.ActiveProfile) = some (some cache)) := by
  obtain ⟨_, _, hov, cache, hget, hb⟩ := LoadConfigFromPath_result env fs s s' ctx path cfg h
  refine ⟨cache, hget, ?_, ?_, ?_, ?_⟩
  · rw [← hb]; rfl
  · rw [← hb]; rfl
  · rw [← hb]; rfl
  · intro hctx
    have hnone : cfg.OverrideProfile = none := by
      cases ho : cfg.OverrideProfile with
      | none => rfl
      | some v =>
        obtain ⟨hv, hne⟩ := (hov v).mp ho
        exact absurd (hctx v hv) hne
    rw [hnone]
    exact hget

/-- C4, an instance: a file whose active profile "default" has nil nested maps. -/
theorem LoadConfigFromPath_active_profile_initialized_witness :
    LoadConfigFromPath memEnv
        [(ConfigPath,
          ⟨some "old", some "default", none, some [("default", some ⟨none, none, none, none⟩)]⟩)]
        ⟨[], []⟩ ⟨none⟩ ConfigPath
      = .ok (⟨[], []⟩, some ⟨none, "default", some [], some [("default", some NewCache)]⟩, none) ∧
    ∃ cache,
      (Config.mk none "default" (some [])
        (some [("default", some NewCache)])).Profiles.get "default" = some (some cache) ∧
      cache.Deployments.isSome ∧ cache.Images.isSome ∧ cache.Dependencies.isSome ∧
      ((∀ v, (Context.mk none).profile = some (.str v) → v = "") →
        (Config.mk none "default" (some []) (some [("default", some NewCache)])).Profiles.get
          ((Config.mk none "default" (some []) (some [("default", some NewCache)])).OverrideProfile.getD
            "default") = some (some cache)) :=
  ⟨by decide,
    LoadConfigFromPath_active_profile_initialized memEnv
      [(ConfigPath,
        ⟨some "old", some "default", none, some [("default", some ⟨none, none, none, none⟩)]⟩)]
      ⟨[], []⟩ ⟨[], []⟩ ⟨none⟩ ConfigPath
      (Config.mk none "default" (some []) (some [("default", some NewCache)])) (by decide)⟩

/-- C9: for every successful `LoadConfigFromPath`, the returned cache has
`OverrideProfile` set to a value exactly when the context carries that value as a
non-empty profile name, and unset otherwise, whatever the file held. -/
theorem LoadConfigFromPath_override_from_context {σ β : Type} (env : Env σ β) (fs : σ)
    (s s' : Store) (ctx : Context) (path : String) (cfg : Config)
    (h : LoadConfigFromPath env fs s ctx path = .ok (s', some cfg, none)) :
    (∀ v, cfg.OverrideProfile = some v ↔ ctx.profile = some (.str v) ∧ v ≠ "") ∧
    ((∀ v, ctx.profile = some (.str v) → v = "") → cfg.OverrideProfile = none) := by
  obtain ⟨_, _, hov, _⟩ := LoadConfigFromPath_result env fs s s' ctx path cfg h
  refine ⟨hov, ?_⟩
  intro hctx
  cases ho : cfg.OverrideProfile with
  | none => rfl
  | some v =>
    obtain ⟨hv, hne⟩ := (hov v).mp ho
    exact absurd (hctx v hv) hne

/-- C9, an instance: the file holds `lastOverrideProfile: old`, the context
names "staging". -/
theorem LoadConfigFromPath_override_from_context_witness :
    LoadConfigFromPath memEnv
        [(ConfigPath, ⟨some "old", some "default", none, none⟩)] ⟨[], []⟩
        ⟨some (.str "staging")⟩ ConfigPath
      = .ok (⟨[], []⟩,
          some ⟨some "staging", "default", some [], some [("default", some NewCache)]⟩, none) ∧
    (∀ v, (Config.mk (some "staging") "default" (some [])
        (some [("default", some NewCache)])).OverrideProfile = some v ↔
      (Context.mk (some (.str "staging"))).profile = some (.str v) ∧ v ≠ "") ∧
    ((∀ v, (Context.mk (some (.str "staging"))).profile = some (.str v) → v = "") →
      (Config.mk (some "staging") "default" (some [])
        (some [("default", some NewCache)])).OverrideProfile = none) :=
  ⟨by decide,
    LoadConfigFromPath_override_from_context memEnv
      [(ConfigPath, ⟨some "old", some "default", none, none⟩)]
      ⟨[], []⟩ ⟨[], []⟩ ⟨some (.str "staging")⟩ ConfigPath
      (Config.mk (some "staging") "default" (some []) (some [("default", some NewCache)]))
      (by decide)⟩

/-! ## `SaveConfig` -/

/-- In test mode `SaveConfig` returns at once: nothing is written or changed. -/
theorem SaveConfig_test_mode {σ β : Type} (env : Env σ β) (g : Globals) (fs : σ) (s : Store)
    (config : Config) (h : g.testDontSaveConfig = true) :
    SaveConfig env g fs s config = .ok (fs, config, none) := by
  simp [SaveConfig, h, pure, Except.pure]

/-- When encoding fails `SaveConfig` returns the error: nothing is written or changed. -/
theorem SaveConfig_encode_error {σ β : Type} (env : Env σ β) (g : Globals) (fs : σ) (s : Store)
    (config : Config) (err : GoError) (h : g.testDontSaveConfig = false)
    (hm : env.Marshal s config = .error err) :
    SaveConfig env g fs s config = .ok (fs, config, some err) := by
  simp [SaveConfig, h, hm, pure, Except.pure]

/-- Outside test mode, the data handed to `WriteFile` is the encoding of the
config as it was passed in; the active profile is initialised afterwards. -/
theorem SaveConfig_run {σ β : Type} (env : Env σ β) (g : Globals) (fs : σ) (s : Store)
    (config : Config) (data : β) (h : g.testDontSaveConfig = false)
    (hm : env.Marshal s config = .ok data) :
    SaveConfig env g fs s config =
      (InitDevSpaceConfig config config.ActiveProfile).map fun config' =>
        match env.MkdirAll fs (env.Dir (env.Join (env.Getwd fs) ConfigPath)) with
        | (fs1, some err) => (fs1, config', some err)
        | (fs1, none) =>
          ((env.WriteFile fs1 (env.Join (env.Getwd fs) ConfigPath) data).1, config',
            (env.WriteFile fs1 (env.Join (env.Getwd fs) ConfigPath) data).2) := by
  cases hi : InitDevSpaceConfig config config.ActiveProfile with
  | error e => simp [SaveConfig, h, hm, hi, bind, Except.bind, Except.map]
  | ok config' =>
    simp only [SaveConfig, h, hm, hi, bind, Except.bind, Except.map, Bool.false_eq_true, if_false]
    cases hd : env.MkdirAll fs (env.Dir (env.Join (env.Getwd fs) ConfigPath)) with
    | mk fs1 err =>
      cases err <;> simp [pure, Except.pure]

/-- The config after a `SaveConfig` that returned is the config as passed, or
that config with its active profile initialised. -/
theorem SaveConfig_ok {σ β : Type} (env : Env σ β) (g : Globals) (fs fs' : σ) (s : Store)
    (config config' : Config) (err : Option GoError)
    (h : SaveConfig env g fs s config = .ok (fs', config', err)) :
    config' = config ∨ InitDevSpaceConfig config config.ActiveProfile = .ok config' := by
  cases ht : g.testDontSaveConfig with
  | true =>
    rw [SaveConfig_test_mode env g fs s config ht] at h
    simp only [Except.ok.injEq, Prod.mk.injEq] at h
    exact Or.inl h.2.1.symm
  | false =>
    cases hm : env.Marshal s config with
    | error e =>
      rw [SaveConfig_encode_error env g fs s config e ht hm] at h
      simp only [Except.ok.injEq, Prod.mk.injEq] at h
      exact Or.inl h.2.1.symm
    | ok data =>
      rw [SaveConfig_run env g fs s config data ht hm] at h
      cases hi : InitDevSpaceConfig config config.ActiveProfile with
      | error e => simp [hi, Except.map] at h
      | ok c =>
        right
        rw [hi] at h
        simp only [Except.map, Except.ok.injEq] at h
        cases hd : env.MkdirAll fs (env.Dir (env.Join (env.Getwd fs) ConfigPath)) with
        | mk fs1 e1 =>
          rw [hd] at h
          cases e1 <;> simp only [Prod.mk.injEq] at h <;> rw [h.2.1]

/-- Outside test mode, after a `SaveConfig` that returned success the file holds
the encoding of the cache as it stood when `SaveConfig` was called, and the cache
left is that cache with its active profile initialised. (For every file system
in which a file that was written reads back as written.) -/
theorem SaveConfig_file_holds_cache_as_passed {σ β : Type} (env : Env σ β)
    (hfs : ∀ fs path data fs', env.WriteFile fs path data = (fs', none) →
      env.ReadFile fs' path = .ok data)
    (g : Globals) (fs fs' : σ) (s : Store) (config config' : Config)
    (ht : g.testDontSaveConfig = false)
    (h : SaveConfig env g fs s config = .ok (fs', config', none)) :
    ∃ data, env.Marshal s config = .ok data ∧
      env.ReadFile fs' (env.Join (env.Getwd fs) ConfigPath) = .ok data ∧
      InitDevSpaceConfig config config.ActiveProfile = .ok config' := by
  cases hm : env.Marshal s config with
  | error e =>
    rw [SaveConfig_encode_error env g fs s config e ht hm] at h
    simp at h
  | ok data =>
    rw [SaveConfig_run env g fs s config data ht hm] at h
    cases hi : InitDevSpaceConfig config config.ActiveProfile with
    | error e => simp [hi, Except.map] at h
    | ok c =>
      rw [hi] at h
      simp only [Except.map, Except.ok.injEq] at h
      cases hd : env.MkdirAll fs (env.Dir (env.Join (env.Getwd fs) ConfigPath)) with
      | mk fs1 e1 =>
        rw [hd] at h
        cases e1 with
        | some e => simp at h
        | none =>
          simp only [Prod.mk.injEq] at h
          obtain ⟨h1, h2, h3⟩ := h
          refine ⟨data, rfl, ?_, by rw [h2]⟩
          apply hfs fs1 _ data fs'
          rw [← h1, ← h3]

/-- In the in-memory file system a file that was written reads back as written. -/
theorem memEnv_read_after_write (fs : MemFS) (path : String) (data : ConfigDoc) (fs' : MemFS)
    (hw : memEnv.WriteFile fs path data = (fs', none)) : memEnv.ReadFile fs' path = .ok data := by
  have h1 : fs' = entriesSet fs path data := by
    simp only [memEnv, Prod.mk.injEq, and_true] at hw
    exact hw.symm
  subst h1
  simp [memEnv, entriesGet_entriesSet_self]

/-- An instance of `SaveConfig_file_holds_cache_as_passed` in the in-memory
environment. -/
theorem SaveConfig_file_holds_cache_as_passed_instance :
    ∃ data, memEnv.Marshal ⟨[], []⟩ ⟨none, "dev", some [("k", "v")], some []⟩ = .ok data ∧
      memEnv.ReadFile [(ConfigPath, ⟨none, some "dev", some [("k", "v")], none⟩)]
        (memEnv.Join (memEnv.Getwd []) ConfigPath) = .ok data ∧
      InitDevSpaceConfig ⟨none, "dev", some [("k", "v")], some []⟩ "dev"
        = .ok ⟨none, "dev", some [("k", "v")], some [("dev", some NewCache)]⟩ :=
  SaveConfig_file_holds_cache_as_passed memEnv memEnv_read_after_write
    Globals.initial [] _ ⟨[], []⟩ ⟨none, "dev", some [("k", "v")], some []⟩ _
    (by decide) (by decide)

/-- C5: the code does not do what the claim says. `SaveConfig` is run outside
test mode on a cache whose active profile "default" has no entry yet: the
document written is the encoding of the cache as passed in, without a `profiles`
key, while the cache as it stands when `SaveConfig` returns has the "default"
entry and another encoding; the file holds the former. -/
theorem SaveConfig_writes_cache_before_init :
    Globals.initial.testDontSaveConfig = false ∧
    SaveConfig memEnv Globals.initial [] ⟨[], []⟩ ⟨none, "default", some [], some []⟩
      = .ok ([(ConfigPath, ⟨none, some "default", none, none⟩)],
          ⟨none, "default", some [], some [("default", some NewCache)]⟩, none) ∧
    yamlMarshal ⟨[], []⟩ ⟨none, "default", some [], some []⟩
      = ⟨none, some "default", none, none⟩ ∧
    yamlMarshal ⟨[], []⟩ ⟨none, "default", some [], some [("default", some NewCache)]⟩
      = ⟨none, some "default", none, some [("default", some ⟨none, none, none, none⟩)]⟩ ∧
    memEnv.ReadFile [(ConfigPath, ⟨none, some "default", none, none⟩)] ConfigPath
      = .ok (yamlMarshal ⟨[], []⟩ ⟨none, "default", some [], some []⟩) := by
  decide

/-- C10, as stated, fails for `SaveConfig`: a cache passed with a nil `Vars` map
still has it nil once `SaveConfig` has returned, and on a cache with a nil
`Profiles` map `SaveConfig` panics. -/
theorem SaveConfig_keeps_nil_vars :
    SaveConfig memEnv Globals.initial [] ⟨[], []⟩ ⟨none, "default", none, some []⟩
      = .ok ([(ConfigPath, ⟨none, some "default", none, none⟩)],
          ⟨none, "default", none, some [("default", some NewCache)]⟩, none) ∧
    (Config.mk none "default" none (some [("default", some NewCache)])).Vars = none ∧
    SaveConfig memEnv Globals.initial [] ⟨[], []⟩ ⟨none, "default", some [], none⟩
      = .error .nilMapAssignment := by
  decide

/-- C10, amended: every cache returned by a successful `LoadConfigFromPath` has
`Profiles` and `Vars` non-nil (a file that omits them yields empty maps);
`SaveConfig` does not make them non-nil but keeps them so: once it has returned,
`Vars` is as it was passed and `Profiles` is non-nil exactly when it was passed
non-nil. -/
theorem load_save_maps_non_nil {σ β : Type} (env : Env σ β) (g : Globals) (fs : σ) (s : Store)
    (ctx : Context) (path : String) (config : Config) :
    (∀ s' cfg, LoadConfigFromPath env fs s ctx path = .ok (s', some cfg, none) →
      cfg.Profiles.isSome ∧ cfg.Vars.isSome) ∧
    (∀ fs' config' err, SaveConfig env g fs s config = .ok (fs', config', err) →
      config'.Vars = config.Vars ∧ config'.Profiles.isSome = config.Profiles.isSome ∧
      (config.Profiles.isSome → config.Vars.isSome →
        config'.Profiles.isSome ∧ config'.Vars.isSome)) := by
  constructor
  · intro s' cfg h
    obtain ⟨hp, hv, _⟩ := LoadConfigFromPath_result env fs s s' ctx path cfg h
    exact ⟨hp, hv⟩
  · intro fs' config' err h
    have key : config'.Vars = config.Vars ∧ config'.Profiles.isSome = config.Profiles.isSome := by
      rcases SaveConfig_ok env g fs fs' s config config' err h with h1 | h1
      · rw [h1]; exact ⟨rfl, rfl⟩
      · obtain ⟨l, cache, hl, hc, _, _⟩ := InitDevSpaceConfig_ok config config' _ h1
        rw [hc, hl]
        exact ⟨rfl, rfl⟩
    refine ⟨key.1, key.2, ?_⟩
    intro hp hv
    rw [key.1, key.2]
    exact ⟨hp, hv⟩

/-- C10, an instance: a file that omits `profiles` and `vars` is loaded, and a
cache with both maps non-nil is saved. -/
theorem load_save_maps_non_nil_witness :
    ((Config.mk none "default" (some []) (some [("default", some NewCache)])).Profiles.isSome ∧
      (Config.mk none "default" (some []) (some [("default", some NewCache)])).Vars.isSome) ∧
    ((Config.mk none "dev" (some [("k", "v")]) (some [("dev", some NewCache)])).Vars
        = (Config.mk none "dev" (some [("k", "v")]) (some [])).Vars ∧
      (Config.mk none "dev" (some [("k", "v")]) (some [("dev", some NewCache)])).Profiles.isSome
        = (Config.mk none "dev" (some [("k", "v")]) (some [])).Profiles.isSome ∧
      ((Config.mk none "dev" (some [("k", "v")]) (some [])).Profiles.isSome →
        (Config.mk none "dev" (some [("k", "v")]) (some [])).Vars.isSome →
        (Config.mk none "dev" (some [("k", "v")]) (some [("dev", some NewCache)])).Profiles.isSome ∧
        (Config.mk none "dev" (some [("k", "v")]) (some [("dev", some NewCache)])).Vars.isSome)) :=
  ⟨(load_save_maps_non_nil memEnv Globals.initial
      [(ConfigPath, ⟨none, some "default", none, none⟩)] ⟨[], []⟩ ⟨none⟩ ConfigPath
      (Config.mk none "dev" (some [("k", "v")]) (some []))).1 ⟨[], []⟩
      (Config.mk none "default" (some []) (some [("default", some NewCache)])) (by decide),
    (load_save_maps_non_nil memEnv Globals.initial
      [(ConfigPath, ⟨none, some "default", none, none⟩)] ⟨[], []⟩ ⟨none⟩ ConfigPath
      (Config.mk none "dev" (some [("k", "v")]) (some []))).2
      [(ConfigPath, ⟨none, some "dev", some [("k", "v")], none⟩)]
      (Config.mk none "dev" (some [("k", "v")]) (some [("dev", some NewCache)])) none
      (by decide)⟩

/-! ## The singleton: `LoadConfig`, `SetTestConfig`, `ResetConfig` -/

/-- Once the guard has fired, `LoadConfig` returns the stored instance and no
error, and touches neither the package variables nor the environment. -/
theorem LoadConfig_fired {σ β : Type} (env : Env σ β) (g : Globals) (fs : σ) (s : Store)
    (ctx : Context) (h : g.loadedConfigOnce = true) :
    LoadConfig env g fs s ctx = .ok (g, s, g.loadedConfig, none) := by
  simp [LoadConfig, h, pure, Except.pure]

/-- While the guard has not fired, `LoadConfig` loads the file at `ConfigPath`,
stores the instance and returns the result and error of that load. -/
theorem LoadConfig_first {σ β : Type} (env : Env σ β) (g : Globals) (fs : σ) (s : Store)
    (ctx : Context) (h : g.loadedConfigOnce = false) :
    LoadConfig env g fs s ctx =
      (LoadConfigFromPath env fs s ctx ConfigPath).map fun r =>
        ({ g with loadedConfig := r.2.1, loadedConfigOnce := true }, r.1, r.2.1, r.2.2) := by
  cases hl : LoadConfigFromPath env fs s ctx ConfigPath with
  | error e => simp [LoadConfig, h, hl, bind, Except.bind, Except.map]
  | ok r =>
    obtain ⟨s', c, e⟩ := r
    simp [LoadConfig, h, hl, bind, Except.bind, Except.map, pure, Except.pure]

/-- Calls of `LoadConfig` made after the guard has fired leave the package
variables as they are. -/
theorem runCalls_loads_fired {σ β : Type} (calls : List (Call σ β)) (g : Globals)
    (h : g.loadedConfigOnce = true) (hc : ∀ c ∈ calls, c.isLoad = true) :
    runCalls calls g = g := by
  induction calls with
  | nil => rfl
  | cons c rest ih =>
    have hrest : ∀ c ∈ rest, c.isLoad = true := fun c hm => hc c (List.mem_cons_of_mem _ hm)
    have hhead := hc c (List.mem_cons_self _ _)
    cases c with
    | loadConfig env fs s ctx =>
      simp only [runCalls, Call.run, LoadConfig_fired env g fs s ctx h]
      exact ih hrest
    | setTestConfig config => simp [Call.isLoad] at hhead
    | resetConfig => simp [Call.isLoad] at hhead
    | saveConfig env fs s config => simp [Call.isLoad] at hhead

/-- No call clears `testDontSaveConfig`. -/
theorem Call.run_keeps_test_mode {σ β : Type} (c : Call σ β) (g : Globals)
    (ht : g.testDontSaveConfig = true) : (c.run g).testDontSaveConfig = true := by
  cases c with
  | setTestConfig config => rfl
  | resetConfig => exact ht
  | saveConfig env fs s config => exact ht
  | loadConfig env fs s ctx =>
    cases ho : g.loadedConfigOnce with
    | true =>
      simp only [Call.run, LoadConfig_fired env g fs s ctx ho]
      exact ht
    | false =>
      simp only [Call.run, LoadConfig_first env g fs s ctx ho]
      cases hl : LoadConfigFromPath env fs s ctx ConfigPath with
      | error e => simpa [Except.map] using ht
      | ok r => simpa [Except.map] using ht

/-- No sequence of calls clears `testDontSaveConfig`. -/
theorem runCalls_keeps_test_mode {σ β : Type} (calls : List (Call σ β)) (g : Globals)
    (ht : g.testDontSaveConfig = true) : (runCalls calls g).testDontSaveConfig = true := by
  induction calls generalizing g with
  | nil => exact ht
  | cons c rest ih => exact ih (c.run g) (Call.run_keeps_test_mode c g ht)

/-- C11: starting with the guard not fired, after a first `LoadConfig` that
succeeds every later `LoadConfig` returns that instance and no error, whatever
the file system then holds; after a first `LoadConfig` whose decoding fails, the
error goes to that call only, and every later `LoadConfig` returns a nil
instance and no error, without loading again. -/
theorem LoadConfig_once {σ β : Type} (env : Env σ β) (g0 : Globals) (fs : σ) (s : Store)
    (ctx : Context) (h0 : g0.loadedConfigOnce = false) :
    (∀ g1 s1 cfg, LoadConfig env g0 fs s ctx = .ok (g1, s1, some cfg, none) →
      ∀ calls : List (Call σ β), (∀ c ∈ calls, c.isLoad = true) →
        runCalls calls g1 = g1 ∧
        ∀ (env' : Env σ β) (fs' : σ) (s' : Store) (ctx' : Context),
          LoadConfig env' g1 fs' s' ctx' = .ok (g1, s', some cfg, none)) ∧
    (∀ data err, env.ReadFile fs ConfigPath = .ok data → env.Unmarshal s data = .error err →
      ∃ g1, LoadConfig env g0 fs s ctx = .ok (g1, s, none, some err) ∧
        ∀ calls : List (Call σ β), (∀ c ∈ calls, c.isLoad = true) →
          runCalls calls g1 = g1 ∧
          ∀ (env' : Env σ β) (fs' : σ) (s' : Store) (ctx' : Context),
            LoadConfig env' g1 fs' s' ctx' = .ok (g1, s', none, none)) := by
  have key : ∀ (g1 : Globals) (s1 : Store) (c : Option Config) (e : Option GoError),
      LoadConfig env g0 fs s ctx = .ok (g1, s1, c, e) →
      g1.loadedConfigOnce = true ∧ g1.loadedConfig = c := by
    intro g1 s1 c e h
    rw [LoadConfig_first env g0 fs s ctx h0] at h
    cases hl : LoadConfigFromPath env fs s ctx ConfigPath with
    | error p => simp [hl, Except.map] at h
    | ok r =>
      simp only [hl, Except.map, Except.ok.injEq, Prod.mk.injEq] at h
      obtain ⟨hg, _, hc, _⟩ := h
      rw [← hg, ← hc]
      exact ⟨rfl, rfl⟩
  constructor
  · intro g1 s1 cfg h calls hcalls
    obtain ⟨hf, hc⟩ := key g1 s1 _ _ h
    refine ⟨runCalls_loads_fired calls g1 hf hcalls, ?_⟩
    intro env' fs' s' ctx'
    rw [LoadConfig_fired env' g1 fs' s' ctx' hf, hc]
  · intro data err hr hu
    have h : LoadConfig env g0 fs s ctx
        = .ok ({ g0 with loadedConfig := none, loadedConfigOnce := true }, s, none, some err) := by
      rw [LoadConfig_first env g0 fs s ctx h0,
        LoadConfigFromPath_decode_error env fs s ctx ConfigPath data err hr hu]
      rfl
    refine ⟨_, h, ?_⟩
    intro calls hcalls
    refine ⟨runCalls_loads_fired calls _ rfl hcalls, ?_⟩
    intro env' fs' s' ctx'
    rw [LoadConfig_fired env' _ fs' s' ctx' rfl]

/-- C11, an instance: a first load of a file with `activeProfile: dev` followed
by two more loads, and a first load whose decoding fails. -/
theorem LoadConfig_once_witness :
    (runCalls [Call.loadConfig memEnv [] ⟨[], []⟩ ⟨none⟩,
        Call.loadConfig (faultyEnv none (some (.decode "bad")) none none) [] ⟨[], []⟩ ⟨none⟩]
        ⟨some ⟨none, "dev", some [], some [("dev", some NewCache)]⟩, true, false⟩
      = ⟨some ⟨none, "dev", some [], some [("dev", some NewCache)]⟩, true, false⟩ ∧
      ∀ (env' : Env MemFS ConfigDoc) (fs' : MemFS) (s' : Store) (ctx' : Context),
        LoadConfig env' ⟨some ⟨none, "dev", some [], some [("dev", some NewCache)]⟩, true, false⟩
          fs' s' ctx'
          = .ok (⟨some ⟨none, "dev", some [], some [("dev", some NewCache)]⟩, true, false⟩, s',
              some ⟨none, "dev", some [], some [("dev", some NewCache)]⟩, none)) ∧
    (∃ g1, LoadConfig (faultyEnv none (some (.decode "bad")) none none) Globals.initial
        [(ConfigPath, ⟨none, some "dev", none, none⟩)] ⟨[], []⟩ ⟨none⟩
        = .ok (g1, ⟨[], []⟩, none, some (.decode "bad")) ∧
      ∀ calls : List (Call MemFS ConfigDoc), (∀ c ∈ calls, c.isLoad = true) →
        runCalls calls g1 = g1 ∧
        ∀ (env' : Env MemFS ConfigDoc) (fs' : MemFS) (s' : Store) (ctx' : Context),
          LoadConfig env' g1 fs' s' ctx' = .ok (g1, s', none, none)) :=
  ⟨(LoadConfig_once memEnv Globals.initial [(ConfigPath, ⟨none, some "dev", none, none⟩)]
      ⟨[], []⟩ ⟨none⟩ (by decide)).1
      ⟨some ⟨none, "dev", some [], some [("dev", some NewCache)]⟩, true, false⟩ ⟨[], []⟩
      ⟨none, "dev", some [], some [("dev", some NewCache)]⟩ (by decide)
      [Call.loadConfig memEnv [] ⟨[], []⟩ ⟨none⟩,
        Call.loadConfig (faultyEnv none (some (.decode "bad")) none none) [] ⟨[], []⟩ ⟨none⟩]
      (by simp [Call.isLoad]),
    (LoadConfig_once (faultyEnv none (some (.decode "bad")) none none) Globals.initial
      [(ConfigPath, ⟨none, some "dev", none, none⟩)] ⟨[], []⟩ ⟨none⟩ (by decide)).2
      ⟨none, some "dev", none, none⟩ (.decode "bad") (by decide) (by decide)⟩

/-- C12: once `SetTestConfig` has been called, after every sequence of calls of
`ResetConfig`, `LoadConfig`, `SetTestConfig` and `SaveConfig`, whether they
return or panic, the process is still in test mode, and every `SaveConfig`
returns success, leaves the file system as it is and its argument unchanged. -/
theorem SaveConfig_after_SetTestConfig {σ β : Type} (g : Globals) (c : Option Config)
    (calls : List (Call σ β)) :
    (runCalls calls (SetTestConfig g c)).testDontSaveConfig = true ∧
    ∀ (env : Env σ β) (fs : σ) (s : Store) (config : Config),
      SaveConfig env (runCalls calls (SetTestConfig g c)) fs s config
        = .ok (fs, config, none) := by
  have ht : (runCalls calls (SetTestConfig g c)).testDontSaveConfig = true :=
    runCalls_keeps_test_mode calls (SetTestConfig g c) rfl
  exact ⟨ht, fun env fs s config => SaveConfig_test_mode env _ fs s config ht⟩

/-- C18: from every state of the package variables, `ResetConfig` clears the
loaded instance and the guard, and the next `LoadConfig` loads the file at
`ConfigPath` afresh, stores what that load returns and returns its result and
its error (and panics if that load panics). -/
theorem LoadConfig_after_ResetConfig {σ β : Type} (env : Env σ β) (g : Globals) (fs : σ)
    (s : Store) (ctx : Context) :
    (ResetConfig g).loadedConfig = none ∧ (ResetConfig g).loadedConfigOnce = false ∧
    LoadConfig env (ResetConfig g) fs s ctx =
      (LoadConfigFromPath env fs s ctx ConfigPath).map fun r =>
        ({ loadedConfig := r.2.1, loadedConfigOnce := true,
           testDontSaveConfig := g.testDontSaveConfig }, r.1, r.2.1, r.2.2) := by
  refine ⟨rfl, rfl, ?_⟩
  rw [LoadConfig_first env (ResetConfig g) fs s ctx rfl]
  rfl

/-- C19: from every state of the package variables, after `SetTestConfig c`
every `LoadConfig` returns `c` and no error, whatever the file system holds,
and the calls made until the next `ResetConfig` or `SetTestConfig` leave the
package variables as `SetTestConfig c` set them; and `SetTestConfig c` called
twice leaves the package variables as one call does. -/
theorem LoadConfig_after_SetTestConfig {σ β : Type} (g : Globals) (c : Option Config) :
    (∀ (env : Env σ β) (fs : σ) (s : Store) (ctx : Context),
      LoadConfig env (SetTestConfig g c) fs s ctx = .ok (SetTestConfig g c, s, c, none)) ∧
    (∀ calls : List (Call σ β),
      (∀ call ∈ calls, call ≠ .resetConfig ∧ ∀ config, call ≠ .setTestConfig config) →
      runCalls calls (SetTestConfig g c) = SetTestConfig g c) ∧
    SetTestConfig (SetTestConfig g c) c = SetTestConfig g c := by
  refine ⟨fun env fs s ctx => LoadConfig_fired env _ fs s ctx rfl, ?_, rfl⟩
  intro calls
  induction calls with
  | nil => intro _; rfl
  | cons call rest ih =>
    intro hc
    have hrest := ih fun call hm => hc call (List.mem_cons_of_mem _ hm)
    have hhead := hc call (List.mem_cons_self _ _)
    cases call with
    | loadConfig env fs s ctx =>
      simp only [runCalls, Call.run, LoadConfig_fired env (SetTestConfig g c) fs s ctx rfl]
      exact hrest
    | saveConfig env fs s config =>
      simp only [runCalls, Call.run]
      exact hrest
    | setTestConfig config => exact absurd rfl (hhead.2 config)
    | resetConfig => exact absurd rfl hhead.1

/-- C19, an instance: after `SetTestConfig`, a load and a save in an environment
whose file at `ConfigPath` holds another cache. -/
theorem LoadConfig_after_SetTestConfig_witness :
    runCalls
        [Call.loadConfig memEnv [(ConfigPath, ⟨none, some "other", none, none⟩)] ⟨[], []⟩ ⟨none⟩,
          Call.saveConfig memEnv [] ⟨[], []⟩ ⟨none, "dev", none, none⟩]
        (SetTestConfig Globals.initial (some ⟨none, "dev", some [], some []⟩))
      = SetTestConfig Globals.initial (some ⟨none, "dev", some [], some []⟩) :=
  (LoadConfig_after_SetTestConfig Globals.initial (some ⟨none, "dev", some [], some []⟩)).2.1
    [Call.loadConfig memEnv [(ConfigPath, ⟨none, some "other", none, none⟩)] ⟨[], []⟩ ⟨none⟩,
      Call.saveConfig memEnv [] ⟨[], []⟩ ⟨none, "dev", none, none⟩]
    (by simp)

/-! ## The effect of `InitDevSpaceConfig` and of `GetDeploymentCache` -/

/-- On profiles held in place: the `Profiles` map is non-nil and holds a nil
pointer under "staging", and `InitDevSpaceConfig` with that name panics. -/
theorem InitDevSpaceConfig_nil_entry_panics :
    (Config.mk none "default" (some [("k", "v")])
      (some [("default", some NewCache), ("staging", none)])).Profiles.isSome = true ∧
    InitDevSpaceConfig
      (Config.mk none "default" (some [("k", "v")])
        (some [("default", some NewCache), ("staging", none)])) "staging"
      = .error .nilPointerDereference := by
  decide

/-- On profiles held in place (no two names holding one pointer): for every config
with a non-nil `Profiles` map and every name whose entry is absent or a non-nil
pointer, `InitDevSpaceConfig` completes, the entry of the name is a new empty
cache or the old one with its nil maps filled, and every other entry, `Vars`,
`ActiveProfile` and `OverrideProfile` are unchanged. -/
theorem InitDevSpaceConfig_effect (config : Config) (name : String)
    (hp : config.Profiles.isSome) (hn : config.Profiles.get name ≠ some none) :
    ∃ config', InitDevSpaceConfig config name = .ok config' ∧
      (config.Profiles.get name = none →
        config'.Profiles.get name = some (some ⟨some [], some [], some [], none⟩)) ∧
      (∀ old, config.Profiles.get name = some (some old) →
        ∃ new, config'.Profiles.get name = some (some new) ∧
          (old.Deployments = none → new.Deployments = some []) ∧
          (∀ m, old.Deployments = some m → new.Deployments = some m) ∧
          (old.Images = none → new.Images = some []) ∧
          (∀ m, old.Images = some m → new.Images = some m) ∧
          (old.Dependencies = none → new.Dependencies = some []) ∧
          (∀ m, old.Dependencies = some m → new.Dependencies = some m) ∧
          new.LastContext = old.LastContext) ∧
      (∀ other, other ≠ name → config'.Profiles.get other = config.Profiles.get other) ∧
      config'.Vars = config.Vars ∧ config'.ActiveProfile = config.ActiveProfile ∧
      config'.OverrideProfile = config.OverrideProfile := by
  obtain ⟨config', h⟩ := InitDevSpaceConfig_returns config name hp hn
  obtain ⟨l, cache, hl, hc, _, hcase⟩ := InitDevSpaceConfig_ok config config' name h
  have hget : config'.Profiles.get name = some (some cache) := by
    rw [hc]; simp [GoMap.get, entriesGet_entriesSet_self]
  have hold : config.Profiles.get name = entriesGet l name := by simp [GoMap.get, hl]
  refine ⟨config', h, ?_, ?_, ?_, by rw [hc], by rw [hc], by rw [hc]⟩
  · intro habs
    rcases hcase with ⟨_, hnew⟩ | ⟨old, hg, _⟩
    · rw [hget, hnew]; rfl
    · rw [hold, hg] at habs; cases habs
  · intro old hpres
    rcases hcase with ⟨hg, _⟩ | ⟨old', hg, hnew⟩
    · rw [hold, hg] at hpres; cases hpres
    · rw [hold, hg] at hpres
      simp only [Option.some.injEq] at hpres
      subst hpres
      refine ⟨cache, hget, ?_⟩
      subst hnew
      refine ⟨?_, ?_, ?_, ?_, ?_, ?_, rfl⟩ <;> intros <;> simp_all [CacheConfig.backfill]
  · intro other hne
    rw [hc, hl]
    simp only [GoMap.get]
    exact entriesGet_entriesSet_of_ne l name other _ (Ne.symm hne)

/-- An instance of `InitDevSpaceConfig_effect`: the entry of "staging" has a nil
`Images` map, a `Deployments` map with an entry and a `LastContext`. -/
theorem InitDevSpaceConfig_effect_witness :
    ∃ config',
      InitDevSpaceConfig
        (Config.mk (some "staging") "default" (some [("k", "v")])
          (some [("default", none),
            ("staging", some ⟨some [("api", some 0)], none, none, some ⟨"ns", "ctx"⟩⟩)]))
        "staging" = .ok config' ∧
      config'.Profiles.get "staging"
        = some (some ⟨some [("api", some 0)], some [], some [], some ⟨"ns", "ctx"⟩⟩) ∧
      config'.Profiles.get "default" = some none ∧
      config'.Vars = some [("k", "v")] ∧ config'.ActiveProfile = "default" ∧
      config'.OverrideProfile = some "staging" := by
  obtain ⟨config', h, _, _, hother, hv, ha, ho⟩ :=
    InitDevSpaceConfig_effect
      (Config.mk (some "staging") "default" (some [("k", "v")])
        (some [("default", none),
          ("staging", some ⟨some [("api", some 0)], none, none, some ⟨"ns", "ctx"⟩⟩)]))
      "staging" (by decide) (by decide)
  refine ⟨config', h, ?_, ?_, hv, ha, ho⟩
  · have h2 : InitDevSpaceConfig
        (Config.mk (some "staging") "default" (some [("k", "v")])
          (some [("default", none),
            ("staging", some ⟨some [("api", some 0)], none, none, some ⟨"ns", "ctx"⟩⟩)]))
        "staging"
        = .ok (Config.mk (some "staging") "default" (some [("k", "v")])
          (some [("default", none),
            ("staging", some ⟨some [("api", some 0)], some [], some [], some ⟨"ns", "ctx"⟩⟩)])) := by
      decide
    rw [h2] at h
    cases h
    decide
  · rw [hother "default" (by decide)]
    decide

/-- C16: for every cache with a non-nil `Deployments` map and every name,
`GetDeploymentCache` returns the entry held under the name and changes nothing
when the name is present; otherwise it allocates an entry whose four fields are
empty, inserts it under that name and returns it, and leaves every other entry
of `Deployments`, every object already in the store, and `Images`,
`Dependencies` and `LastContext` unchanged. -/
theorem GetDeploymentCache_effect (s : Store) (cache : CacheConfig) (name : String)
    (h : cache.Deployments.isSome) :
    (∀ p, cache.Deployments.get name = some p →
      cache.GetDeploymentCache s name = .ok (s, cache, p)) ∧
    (cache.Deployments.get name = none →
      ∃ s1 cache1 a, cache.GetDeploymentCache s name = .ok (s1, cache1, some a) ∧
        s1.readDeployment (some a) = .ok ⟨"", "", "", ""⟩ ∧
        cache1.Deployments.get name = some (some a) ∧
        (∀ other, other ≠ name → cache1.Deployments.get other = cache.Deployments.get other) ∧
        (∀ b, b < s.deployments.length → s1.deployments[b]? = s.deployments[b]?) ∧
        s.deployments.length ≤ a ∧ s1.images = s.images ∧
        cache1.Images = cache.Images ∧ cache1.Dependencies = cache.Dependencies ∧
        cache1.LastContext = cache.LastContext) := by
  constructor
  · intro p hp
    exact GetDeploymentCache_present s cache name p hp
  · intro hnone
    cases hl : cache.Deployments with
    | none => simp [hl] at h
    | some l =>
      have hg : entriesGet l name = none := by simpa [GoMap.get, hl] using hnone
      refine ⟨_, _, s.deployments.length, GetDeploymentCache_absent s cache name l hl hg,
        ?_, ?_, ?_, ?_, le_refl _, rfl, rfl, rfl, rfl⟩
      · simp [Store.readDeployment, DeploymentCache.zero]
      · simp [GoMap.get, entriesGet_entriesSet_self]
      · intro other hne
        simp only [GoMap.get]
        exact entriesGet_entriesSet_of_ne l name other _ (Ne.symm hne)
      · intro b hb
        simp [List.getElem?_append_left hb]

/-- C16, an instance: "api" is asked of a cache that holds "db" only. -/
theorem GetDeploymentCache_effect_witness :
    (∀ p, (CacheConfig.mk (some [("db", some 0)]) none none none).Deployments.get "db" = some p →
      (CacheConfig.mk (some [("db", some 0)]) none none none).GetDeploymentCache
        ⟨[], [⟨"h", "", "", ""⟩]⟩ "db"
        = .ok (⟨[], [⟨"h", "", "", ""⟩]⟩, CacheConfig.mk (some [("db", some 0)]) none none none, p)) ∧
    ∃ s1 cache1 a,
      (CacheConfig.mk (some [("db", some 0)]) none none none).GetDeploymentCache
        ⟨[], [⟨"h", "", "", ""⟩]⟩ "api" = .ok (s1, cache1, some a) ∧
      s1.readDeployment (some a) = .ok ⟨"", "", "", ""⟩ ∧
      cache1.Deployments.get "api" = some (some a) ∧
      (∀ other, other ≠ "api" → cache1.Deployments.get other
        = (CacheConfig.mk (some [("db", some 0)]) none none none).Deployments.get other) ∧
      (∀ b, b < (Store.mk [] [⟨"h", "", "", ""⟩]).deployments.length →
        s1.deployments[b]? = (Store.mk [] [⟨"h", "", "", ""⟩]).deployments[b]?) ∧
      (Store.mk [] [⟨"h", "", "", ""⟩]).deployments.length ≤ a ∧
      s1.images = (Store.mk [] [⟨"h", "", "", ""⟩]).images ∧
      cache1.Images = none ∧ cache1.Dependencies = none ∧ cache1.LastContext = none :=
  ⟨(GetDeploymentCache_effect ⟨[], [⟨"h", "", "", ""⟩]⟩
      (CacheConfig.mk (some [("db", some 0)]) none none none) "db" (by decide)).1,
    (GetDeploymentCache_effect ⟨[], [⟨"h", "", "", ""⟩]⟩
      (CacheConfig.mk (some [("db", some 0)]) none none none) "api" (by decide)).2 (by decide)⟩

/-! ## Failures of reading and of decoding -/

/-- Whatever the error of the read, `LoadConfigFromPath` builds a new cache and
returns it without an error. -/
theorem LoadConfigFromPath_read_failure {σ β : Type} (env : Env σ β) (fs : σ) (s : Store)
    (ctx : Context) (path : String) (e : GoError)
    (h : env.ReadFile fs path = .error e) (hc : ctx.profile ≠ some .nonString) :
    ∃ ov, LoadConfigFromPath env fs s ctx path
      = .ok (s, some ⟨ov, "", some [], some [("", some NewCache)]⟩, none) := by
  rw [LoadConfigFromPath_read_error env fs s ctx path e h]
  have hinit : ∀ ov, InitDevSpaceConfig
      { OverrideProfile := ov, ActiveProfile := "", Profiles := some [], Vars := some [] } ""
      = .ok { OverrideProfile := ov, ActiveProfile := "", Vars := some [],
              Profiles := some [("", some NewCache)] } := by
    intro ov
    rw [InitDevSpaceConfig_absent _ "" [] rfl rfl]
    rfl
  cases hp : ctx.profile with
  | none =>
    rw [finish_no_override s ctx _ (Or.inl hp), hinit]
    exact ⟨_, rfl⟩
  | some value =>
    cases value with
    | nonString => exact absurd hp hc
    | str p =>
      by_cases hpe : p = ""
      · subst hpe
        rw [finish_no_override s ctx _ (Or.inr hp), hinit]
        exact ⟨_, rfl⟩
      · rw [finish_override s ctx _ p hp hpe, hinit]
        exact ⟨_, rfl⟩

/-- C14, as stated, fails: the read of an existing file fails with "permission
denied", and `LoadConfigFromPath` returns a newly built cache and no error. -/
theorem LoadConfigFromPath_permission_denied_no_error :
    (faultyEnv (some .permissionDenied) none none none).ReadFile
      [(ConfigPath, ⟨none, some "dev", none, none⟩)] ConfigPath = .error .permissionDenied ∧
    LoadConfigFromPath (faultyEnv (some .permissionDenied) none none none)
        [(ConfigPath, ⟨none, some "dev", none, none⟩)] ⟨[], []⟩ ⟨none⟩ ConfigPath
      = .ok (⟨[], []⟩, some ⟨none, "", some [], some [("", some NewCache)]⟩, none) := by
  decide

/-- C14, amended: a failure of the directory creation or of the write in
`SaveConfig` is returned to the caller; a failure of the read in
`LoadConfigFromPath` never is: for every path whose read fails, whatever the
reason, and every context whose profile value is absent or a string, a newly
built cache is returned and no error. -/
theorem io_failures_surfaced_on_save_only {σ β : Type} (env : Env σ β) (g : Globals) (fs : σ)
    (s : Store) (ctx : Context) (path : String) (config : Config) :
    (∀ e, env.ReadFile fs path = .error e → ctx.profile ≠ some .nonString →
      ∃ cfg, LoadConfigFromPath env fs s ctx path = .ok (s, some cfg, none) ∧
        cfg.ActiveProfile = "" ∧ cfg.Vars = some [] ∧
        cfg.Profiles = some [("", some NewCache)]) ∧
    (∀ data config' fs1 err, g.testDontSaveConfig = false → env.Marshal s config = .ok data →
      InitDevSpaceConfig config config.ActiveProfile = .ok config' →
      env.MkdirAll fs (env.Dir (env.Join (env.Getwd fs) ConfigPath)) = (fs1, some err) →
      SaveConfig env g fs s config = .ok (fs1, config', some err)) ∧
    (∀ data config' fs1 fs2 err, g.testDontSaveConfig = false → env.Marshal s config = .ok data →
      InitDevSpaceConfig config config.ActiveProfile = .ok config' →
      env.MkdirAll fs (env.Dir (env.Join (env.Getwd fs) ConfigPath)) = (fs1, none) →
      env.WriteFile fs1 (env.Join (env.Getwd fs) ConfigPath) data = (fs2, some err) →
      SaveConfig env g fs s config = .ok (fs2, config', some err)) := by
  refine ⟨?_, ?_, ?_⟩
  · intro e h hc
    obtain ⟨ov, hl⟩ := LoadConfigFromPath_read_failure env fs s ctx path e h hc
    exact ⟨_, hl, rfl, rfl, rfl⟩
  · intro data config' fs1 err ht hm hi hd
    rw [SaveConfig_run env g fs s config data ht hm, hi]
    simp [Except.map, hd]
  · intro data config' fs1 fs2 err ht hm hi hd hw
    rw [SaveConfig_run env g fs s config data ht hm, hi]
    simp [Except.map, hd, hw]

/-- C14, an instance: a read that fails because the path is a directory, a
directory creation that fails, and a write that fails. -/
theorem io_failures_surfaced_on_save_only_witness :
    (∃ cfg, LoadConfigFromPath (faultyEnv (some .isDirectory) none none none) [] ⟨[], []⟩
        ⟨none⟩ "dir" = .ok (⟨[], []⟩, some cfg, none) ∧
      cfg.ActiveProfile = "" ∧ cfg.Vars = some [] ∧
      cfg.Profiles = some [("", some NewCache)]) ∧
    SaveConfig (faultyEnv none none (some (.io "mkdir")) none) Globals.initial [] ⟨[], []⟩
        ⟨none, "dev", some [], some []⟩
      = .ok ([], ⟨none, "dev", some [], some [("dev", some NewCache)]⟩, some (.io "mkdir")) ∧
    SaveConfig (faultyEnv none none none (some (.io "write"))) Globals.initial [] ⟨[], []⟩
        ⟨none, "dev", some [], some []⟩
      = .ok ([], ⟨none, "dev", some [], some [("dev", some NewCache)]⟩, some (.io "write")) :=
  ⟨(io_failures_surfaced_on_save_only (faultyEnv (some .isDirectory) none none none)
      Globals.initial [] ⟨[], []⟩ ⟨none⟩ "dir" ⟨none, "dev", some [], some []⟩).1
      .isDirectory (by decide) (by decide),
    (io_failures_surfaced_on_save_only (faultyEnv none none (some (.io "mkdir")) none)
      Globals.initial [] ⟨[], []⟩ ⟨none⟩ "dir" ⟨none, "dev", some [], some []⟩).2.1
      ⟨none, some "dev", none, none⟩ _ [] (.io "mkdir") (by decide) (by decide) (by decide)
      (by decide),
    (io_failures_surfaced_on_save_only (faultyEnv none none none (some (.io "write")))
      Globals.initial [] ⟨[], []⟩ ⟨none⟩ "dir" ⟨none, "dev", some [], some []⟩).2.2
      ⟨none, some "dev", none, none⟩ _ [] [] (.io "write") (by decide) (by decide) (by decide)
      (by decide) (by decide)⟩

/-- C15, as stated, fails: the file is read and decoded successfully, its active
profile "default" is `null`, and `LoadConfigFromPath` panics on the nil pointer
instead of returning a cache. -/
theorem LoadConfigFromPath_decoded_nil_profile_panics :
    memEnv.ReadFile [(ConfigPath, ⟨none, some "default", none, some [("default", none)]⟩)]
      ConfigPath = .ok ⟨none, some "default", none, some [("default", none)]⟩ ∧
    memEnv.Unmarshal ⟨[], []⟩ ⟨none, some "default", none, some [("default", none)]⟩
      = .ok (⟨[], []⟩, ⟨none, "default", none, some [("default", none)]⟩) ∧
    LoadConfigFromPath memEnv
        [(ConfigPath, ⟨none, some "default", none, some [("default", none)]⟩)]
        ⟨[], []⟩ ⟨none⟩ ConfigPath
      = .error .nilPointerDereference := by
  decide

/-- C15, amended: for every path whose file is read successfully, when decoding
fails `LoadConfigFromPath` returns the error and a nil instance; when decoding
succeeds, the context's profile value is absent or a string and the decoded
cache holds no nil pointer under its `ActiveProfile`, it returns a non-nil cache
and no error; and whenever it returns, it returns an error exactly when decoding
failed, then with a nil instance and otherwise with a non-nil one. -/
theorem LoadConfigFromPath_error_iff_decode_fails {σ β : Type} (env : Env σ β) (fs : σ)
    (s : Store) (ctx : Context) (path : String) (data : β)
    (hr : env.ReadFile fs path = .ok data) :
    (∀ err, env.Unmarshal s data = .error err →
      LoadConfigFromPath env fs s ctx path = .ok (s, none, some err)) ∧
    (∀ s0 c, env.Unmarshal s data = .ok (s0, c) → ctx.profile ≠ some .nonString →
      c.Profiles.get c.ActiveProfile ≠ some none →
      ∃ cfg, LoadConfigFromPath env fs s ctx path = .ok (s0, some cfg, none)) ∧
    (∀ s' c e, LoadConfigFromPath env fs s ctx path = .ok (s', c, e) →
      (e.isSome ↔ ∃ err, env.Unmarshal s data = .error err) ∧
      (e.isSome → c = none) ∧ (e = none → c.isSome)) := by
  refine ⟨?_, ?_, ?_⟩
  · intro err hu
    exact LoadConfigFromPath_decode_error env fs s ctx path data err hr hu
  · intro s0 c hu hc hn
    rw [LoadConfigFromPath_decoded env fs s s0 ctx path data c hr hu]
    have hinit : ∀ ov, ∃ cfg, InitDevSpaceConfig
        { OverrideProfile := ov, ActiveProfile := c.ActiveProfile,
          Vars := some (c.Vars.getD []), Profiles := some (c.Profiles.getD []) }
        c.ActiveProfile = .ok cfg := by
      intro ov
      refine InitDevSpaceConfig_returns _ _ (by simp) ?_
      intro hnil
      apply hn
      cases hp : c.Profiles with
      | none => simp [GoMap.get, hp, entriesGet] at hnil
      | some l => simpa [GoMap.get, hp] using hnil
    cases hp : ctx.profile with
    | none =>
      obtain ⟨cfg, hi⟩ := hinit none
      rw [finish_no_override s0 ctx _ (Or.inl hp), hi]
      exact ⟨cfg, rfl⟩
    | some value =>
      cases value with
      | nonString => exact absurd hp hc
      | str p =>
        by_cases hpe : p = ""
        · subst hpe
          obtain ⟨cfg, hi⟩ := hinit none
          rw [finish_no_override s0 ctx _ (Or.inr hp), hi]
          exact ⟨cfg, rfl⟩
        · obtain ⟨cfg, hi⟩ := hinit (some p)
          rw [finish_override s0 ctx _ p hp hpe, hi]
          exact ⟨cfg, rfl⟩
  · intro s' c e h
    cases hu : env.Unmarshal s data with
    | error err =>
      rw [LoadConfigFromPath_decode_error env fs s ctx path data err hr hu] at h
      simp only [Except.ok.injEq, Prod.mk.injEq] at h
      obtain ⟨_, hc, he⟩ := h
      subst hc; subst he
      simp
    | ok r =>
      obtain ⟨s0, c0⟩ := r
      rw [LoadConfigFromPath_decoded env fs s s0 ctx path data c0 hr hu] at h
      obtain ⟨ov, cfg, hres, _, _⟩ := finish_ok s0 ctx _ _ h
      simp only [Prod.mk.injEq] at hres
      obtain ⟨_, hc, he⟩ := hres
      subst hc; subst he
      simp

/-- C15, an instance: a file that decodes, and a file whose decoding fails. -/
theorem LoadConfigFromPath_error_iff_decode_fails_witness :
    (∃ cfg, LoadConfigFromPath memEnv [(ConfigPath, ⟨none, some "dev", none, none⟩)] ⟨[], []⟩
        ⟨none⟩ ConfigPath = .ok (⟨[], []⟩, some cfg, none)) ∧
    LoadConfigFromPath (faultyEnv none (some (.decode "bad")) none none)
        [(ConfigPath, ⟨none, some "dev", none, none⟩)] ⟨[], []⟩ ⟨none⟩ ConfigPath
      = .ok (⟨[], []⟩, none, some (.decode "bad")) :=
  ⟨(LoadConfigFromPath_error_iff_decode_fails memEnv
      [(ConfigPath, ⟨none, some "dev", none, none⟩)] ⟨[], []⟩ ⟨none⟩ ConfigPath
      ⟨none, some "dev", none, none⟩ (by decide)).2.1
      ⟨[], []⟩ ⟨none, "dev", none, none⟩ (by decide) (by decide) (by decide),
    (LoadConfigFromPath_error_iff_decode_fails (faultyEnv none (some (.decode "bad")) none none)
      [(ConfigPath, ⟨none, some "dev", none, none⟩)] ⟨[], []⟩ ⟨none⟩ ConfigPath
      ⟨none, some "dev", none, none⟩ (by decide)).1 (.decode "bad") (by decide)⟩

/-! ## Round trip through the document encoding -/

theorem omitEmpty_getD (x : String) : (omitEmpty x).getD "" = x := by
  by_cases h : x = ""
  · simp [omitEmpty, h]
  · simp [omitEmpty, h]

theorem imageOfDoc_yamlImage (i : ImageCache) : imageOfDoc (yamlImage i) = i := by
  simp [imageOfDoc, yamlImage, omitEmpty_getD]

theorem deploymentOfDoc_yamlDeployment (d : DeploymentCache) :
    deploymentOfDoc (yamlDeployment d) = d := by
  simp [deploymentOfDoc, yamlDeployment, omitEmpty_getD]

theorem getElem?_append_cons_length {α : Type} (l r : List α) (a : α) :
    (l ++ a :: r)[l.length]? = some a := by
  induction l with
  | nil => simp
  | cons b l ih => simpa using ih

theorem Store.extend_nil (s : Store) : s.extend [] [] = s := by
  simp [Store.extend]

theorem Store.extend_extend (s : Store) (x x' : List ImageCache) (y y' : List DeploymentCache) :
    (s.extend x y).extend x' y' = s.extend (x ++ x') (y ++ y') := by
  simp [Store.extend]

/-- Decoding the images of a profile allocates after the objects of the store, and
the decoded pointers lead to the decoded images, also after further allocations. -/
theorem decodeImages_spec (docs : List (String × Option ImageDoc)) (s2 : Store) :
    ∃ x, (decodeImages s2 docs).1 = s2.extend x [] ∧
      ∀ x' y', viewEntries ((decodeImages s2 docs).1.extend x' y').images
          (some (decodeImages s2 docs).2)
        = docs.map fun e => (e.1, e.2.map imageOfDoc) := by
  induction docs generalizing s2 with
  | nil => exact ⟨[], by simp [decodeImages, Store.extend], by simp [decodeImages, viewEntries]⟩
  | cons e rest ih =>
    obtain ⟨k, d⟩ := e
    cases d with
    | none =>
      obtain ⟨x, hx, hv⟩ := ih s2
      refine ⟨x, by simpa [decodeImages] using hx, ?_⟩
      intro x' y'
      have := hv x' y'
      simp only [viewEntries, Option.getD_some] at this
      simp [decodeImages, viewEntries, this]
    | some d =>
      have hs : ({ s2 with images := s2.images ++ [imageOfDoc d] } : Store)
          = s2.extend [imageOfDoc d] [] := by simp [Store.extend]
      have hdef : decodeImages s2 ((k, some d) :: rest)
          = ((decodeImages (s2.extend [imageOfDoc d] []) rest).1,
              (k, some s2.images.length) :: (decodeImages (s2.extend [imageOfDoc d] []) rest).2) := by
        rw [← hs]; rfl
      obtain ⟨x, hx, hv⟩ := ih (s2.extend [imageOfDoc d] [])
      rw [hdef]
      refine ⟨imageOfDoc d :: x, ?_, ?_⟩
      · rw [hx, Store.extend_extend]; simp
      · intro x' y'
        have := hv x' y'
        simp only [viewEntries, Option.getD_some] at this
        simp only [viewEntries, Option.getD_some, List.map_cons, this, Option.map_some',
          Option.bind_some, List.cons.injEq, Prod.mk.injEq, true_and, and_true]
        rw [hx]
        simpa [Store.extend] using getElem?_append_cons_length s2.images (x ++ x') (imageOfDoc d)

/-- Decoding the deployments of a profile allocates after the objects of the store,
and the decoded pointers lead to the decoded deployments, also after further
allocations. -/
theorem decodeDeployments_spec (docs : List (String × Option DeploymentDoc)) (s2 : Store) :
    ∃ y, (decodeDeployments s2 docs).1 = s2.extend [] y ∧
      ∀ x' y', viewEntries ((decodeDeployments s2 docs).1.extend x' y').deployments
          (some (decodeDeployments s2 docs).2)
        = docs.map fun e => (e.1, e.2.map deploymentOfDoc) := by
  induction docs generalizing s2 with
  | nil =>
    exact ⟨[], by simp [decodeDeployments, Store.extend], by simp [decodeDeployments, viewEntries]⟩
  | cons e rest ih =>
    obtain ⟨k, d⟩ := e
    cases d with
    | none =>
      obtain ⟨y, hy, hv⟩ := ih s2
      refine ⟨y, by simpa [decodeDeployments] using hy, ?_⟩
      intro x' y'
      have := hv x' y'
      simp only [viewEntries, Option.getD_some] at this
      simp [decodeDeployments, viewEntries, this]
    | some d =>
      have hs : ({ s2 with deployments := s2.deployments ++ [deploymentOfDoc d] } : Store)
          = s2.extend [] [deploymentOfDoc d] := by simp [Store.extend]
      have hdef : decodeDeployments s2 ((k, some d) :: rest)
          = ((decodeDeployments (s2.extend [] [deploymentOfDoc d]) rest).1,
              (k, some s2.deployments.length)
                :: (decodeDeployments (s2.extend [] [deploymentOfDoc d]) rest).2) := by
        rw [← hs]; rfl
      obtain ⟨y, hy, hv⟩ := ih (s2.extend [] [deploymentOfDoc d])
      rw [hdef]
      refine ⟨deploymentOfDoc d :: y, ?_, ?_⟩
      · rw [hy, Store.extend_extend]; simp
      · intro x' y'
        have := hv x' y'
        simp only [viewEntries, Option.getD_some] at this
        simp only [viewEntries, Option.getD_some, List.map_cons, this, Option.map_some',
          Option.bind_some, List.cons.injEq, Prod.mk.injEq, true_and, and_true]
        rw [hy]
        simpa [Store.extend] using
          getElem?_append_cons_length s2.deployments (y ++ y') (deploymentOfDoc d)

/-- The content of a decoded profile is the content of its document. -/
theorem decodeProfile_view (s2 : Store) (d : ProfileDoc) :
    ∃ x y, (decodeProfile s2 d).1 = s2.extend x y ∧
      ∀ x' y', viewProfile ((decodeProfile s2 d).1.extend x' y') (decodeProfile s2 d).2
        = viewOfProfileDoc d := by
  obtain ⟨dd, di, ddep, dlc⟩ := d
  cases dd with
  | none =>
    cases di with
    | none =>
      exact ⟨[], [], by simp [decodeProfile, Store.extend],
        by simp [decodeProfile, viewProfile, viewOfProfileDoc, viewEntries]⟩
    | some li =>
      obtain ⟨x, hx, hv⟩ := decodeImages_spec li s2
      refine ⟨x, [], by simpa [decodeProfile] using hx, ?_⟩
      intro x' y'
      have := hv x' y'
      simp only [decodeProfile, viewProfile, viewOfProfileDoc, this]
      simp [viewEntries]
  | some ld =>
    obtain ⟨y, hy, hvd⟩ := decodeDeployments_spec ld s2
    cases di with
    | none =>
      refine ⟨[], y, by simpa [decodeProfile] using hy, ?_⟩
      intro x' y'
      have := hvd x' y'
      simp only [decodeProfile, viewProfile, viewOfProfileDoc, this]
      simp [viewEntries]
    | some li =>
      obtain ⟨x, hx, hvi⟩ := decodeImages_spec li (decodeDeployments s2 ld).1
      refine ⟨x, y, ?_, ?_⟩
      · simp only [decodeProfile]
        rw [hx, hy, Store.extend_extend]
        simp
      · intro x' y'
        have h1 := hvi x' y'
        have h2 := hvd (x ++ x') y'
        have hst : (decodeImages (decodeDeployments s2 ld).1 li).1.extend x' y'
            = (decodeDeployments s2 ld).1.extend (x ++ x') y' := by
          rw [hx, Store.extend_extend]; simp
        simp only [decodeProfile, viewProfile, viewOfProfileDoc, h1]
        rw [hst, h2]
        simp

/-- The content of decoded profiles is the content of their documents. -/
theorem decodeProfiles_view (docs : List (String × Option ProfileDoc)) (s2 : Store) :
    ∃ x y, (decodeProfiles s2 docs).1 = s2.extend x y ∧
      ∀ x' y', (decodeProfiles s2 docs).2.map
          (fun e => (e.1, e.2.map (viewProfile ((decodeProfiles s2 docs).1.extend x' y'))))
        = docs.map fun e => (e.1, e.2.map viewOfProfileDoc) := by
  induction docs generalizing s2 with
  | nil => exact ⟨[], [], by simp [decodeProfiles, Store.extend], by simp [decodeProfiles]⟩
  | cons e rest ih =>
    obtain ⟨k, d⟩ := e
    cases d with
    | none =>
      obtain ⟨x, y, hxy, hv⟩ := ih s2
      refine ⟨x, y, by simpa [decodeProfiles] using hxy, ?_⟩
      intro x' y'
      have := hv x' y'
      simp [decodeProfiles, this]
    | some d =>
      obtain ⟨x1, y1, h1, hv1⟩ := decodeProfile_view s2 d
      obtain ⟨x2, y2, h2, hv2⟩ := ih (decodeProfile s2 d).1
      refine ⟨x1 ++ x2, y1 ++ y2, ?_, ?_⟩
      · simp only [decodeProfiles]
        rw [h2, h1, Store.extend_extend]
      · intro x' y'
        have hr := hv2 x' y'
        have hst : (decodeProfiles (decodeProfile s2 d).1 rest).1.extend x' y'
            = (decodeProfile s2 d).1.extend (x2 ++ x') (y2 ++ y') := by
          rw [h2, Store.extend_extend]
        have hh := hv1 (x2 ++ x') (y2 ++ y')
        simp only [decodeProfiles, List.map_cons, hr, Option.map_some', List.cons.injEq,
          Prod.mk.injEq, true_and, and_true, Option.some.injEq]
        rw [hst, hh]

/-- The content of a decoded config is the content of its document. -/
theorem yamlUnmarshal_view (s2 : Store) (d : ConfigDoc) :
    viewConfig (yamlUnmarshal s2 d).1 (yamlUnmarshal s2 d).2 = viewOfConfigDoc d := by
  obtain ⟨o, a, v, p⟩ := d
  cases p with
  | none => simp [yamlUnmarshal, viewConfig, viewOfConfigDoc]
  | some l =>
    obtain ⟨x, y, _, hv⟩ := decodeProfiles_view l s2
    have := hv [] []
    rw [Store.extend_nil] at this
    simp [yamlUnmarshal, viewConfig, viewOfConfigDoc, this]

theorem omitEmptyMap_getD {V W : Type} (m : GoMap V) (f : List (String × V) → List (String × W))
    (hf : f [] = []) : (omitEmptyMap m f).getD [] = f (m.getD []) := by
  cases m with
  | none => simp [omitEmptyMap, hf]
  | some l =>
    cases l with
    | nil => simp [omitEmptyMap, hf]
    | cons e l => simp [omitEmptyMap]

/-- The content of the document of a profile is the content of the profile. -/
theorem viewOfProfileDoc_yamlProfile (s : Store) (c : CacheConfig) :
    viewOfProfileDoc (yamlProfile s c) = viewProfile s c := by
  obtain ⟨d, i, dep, lc⟩ := c
  simp only [viewOfProfileDoc, yamlProfile, viewProfile, viewEntries]
  rw [omitEmptyMap_getD _ _ (by rfl), omitEmptyMap_getD _ _ (by rfl),
    omitEmptyMap_getD _ _ (by rfl)]
  simp only [List.map_map, id_eq, ProfileView.mk.injEq, true_and]
  refine ⟨?_, ?_, ?_⟩
  · apply List.map_congr_left
    intro e _
    obtain ⟨k, p⟩ := e
    cases p with
    | none => rfl
    | some a => cases h : s.deployments[a]? <;> simp [h, deploymentOfDoc_yamlDeployment]
  · apply List.map_congr_left
    intro e _
    obtain ⟨k, p⟩ := e
    cases p with
    | none => rfl
    | some a => cases h : s.images[a]? <;> simp [h, imageOfDoc_yamlImage]
  · cases lc with
    | none => rfl
    | some l => simp [omitEmpty_getD]

/-- The content of the document of a config is the content of the config. -/
theorem viewOfConfigDoc_yamlMarshal (s : Store) (c : Config) :
    viewOfConfigDoc (yamlMarshal s c) = viewConfig s c := by
  obtain ⟨o, a, v, p⟩ := c
  simp only [viewOfConfigDoc, yamlMarshal, viewConfig]
  rw [omitEmptyMap_getD _ _ (by rfl), omitEmptyMap_getD _ _ (by rfl)]
  simp only [omitEmpty_getD, id_eq, List.map_map, ConfigView.mk.injEq, true_and]
  apply List.map_congr_left
  intro e _
  obtain ⟨k, p⟩ := e
  cases p with
  | none => rfl
  | some c => simp [viewOfProfileDoc_yamlProfile]

/-- Decoding the document of a config gives a config of the same content. -/
theorem yamlUnmarshal_yamlMarshal_view (s s2 : Store) (c : Config) :
    viewConfig (yamlUnmarshal s2 (yamlMarshal s c)).1 (yamlUnmarshal s2 (yamlMarshal s c)).2
      = viewConfig s c := by
  rw [yamlUnmarshal_view, viewOfConfigDoc_yamlMarshal]

theorem entriesGet_map {V W : Type} (f : V → W) (l : List (String × V)) (k : String) :
    entriesGet (l.map fun e => (e.1, f e.2)) k = (entriesGet l k).map f := by
  induction l with
  | nil => simp [entriesGet]
  | cons e rest ih =>
    obtain ⟨k', v⟩ := e
    by_cases h : k' = k
    · simp [entriesGet, h]
    · simp [entriesGet, h, ih]

/-- C17, as stated, fails: a cache with an entry in each of two profiles is saved
and the written file is loaded without an override. The profile "staging", which
is not the active one, was saved with empty `Deployments` and `Dependencies`
maps and comes back with nil ones, on which `GetDeploymentCache` panics. -/
theorem round_trip_loses_empty_maps :
    SaveConfig memEnv Globals.initial []
        ⟨[⟨"", "", "", "", "", "", "v1"⟩, ⟨"", "", "", "", "", "", "v2"⟩], []⟩
        ⟨none, "default", some [("k", "v")],
          some [("default", some ⟨some [], some [("web", some 0)], some [], none⟩),
            ("staging", some ⟨some [], some [("web", some 1)], some [], none⟩)]⟩
      = .ok ([(ConfigPath, ⟨none, some "default", some [("k", "v")],
            some [("default", some ⟨none,
                some [("web", some ⟨none, none, none, none, none, none, some "v1"⟩)], none, none⟩),
              ("staging", some ⟨none,
                some [("web", some ⟨none, none, none, none, none, none, some "v2"⟩)], none,
                none⟩)]⟩)],
          ⟨none, "default", some [("k", "v")],
            some [("default", some ⟨some [], some [("web", some 0)], some [], none⟩),
              ("staging", some ⟨some [], some [("web", some 1)], some [], none⟩)]⟩, none) ∧
    LoadConfigFromPath memEnv
        [(ConfigPath, ⟨none, some "default", some [("k", "v")],
          some [("default", some ⟨none,
              some [("web", some ⟨none, none, none, none, none, none, some "v1"⟩)], none, none⟩),
            ("staging", some ⟨none,
              some [("web", some ⟨none, none, none, none, none, none, some "v2"⟩)], none,
              none⟩)]⟩)]
        ⟨[⟨"", "", "", "", "", "", "v1"⟩, ⟨"", "", "", "", "", "", "v2"⟩], []⟩ ⟨none⟩ ConfigPath
      = .ok (⟨[⟨"", "", "", "", "", "", "v1"⟩, ⟨"", "", "", "", "", "", "v2"⟩,
            ⟨"", "", "", "", "", "", "v1"⟩, ⟨"", "", "", "", "", "", "v2"⟩], []⟩,
          some ⟨none, "default", some [("k", "v")],
            some [("default", some ⟨some [], some [("web", some 2)], some [], none⟩),
              ("staging", some ⟨none, some [("web", some 3)], none, none⟩)]⟩, none) ∧
    (CacheConfig.mk (some []) (some [("web", some 1)]) (some []) none).GetDeploymentCache
        ⟨[⟨"", "", "", "", "", "", "v1"⟩, ⟨"", "", "", "", "", "", "v2"⟩], []⟩ "api"
      = .ok (⟨[⟨"", "", "", "", "", "", "v1"⟩, ⟨"", "", "", "", "", "", "v2"⟩],
            [DeploymentCache.zero]⟩,
          ⟨some [("api", some 0)], some [("web", some 1)], some [], none⟩, some 0) ∧
    (CacheConfig.mk none (some [("web", some 3)]) none none).GetDeploymentCache
        ⟨[⟨"", "", "", "", "", "", "v1"⟩, ⟨"", "", "", "", "", "", "v2"⟩,
          ⟨"", "", "", "", "", "", "v1"⟩, ⟨"", "", "", "", "", "", "v2"⟩], []⟩ "api"
      = .error .nilMapAssignment := by
  decide

/-! ## The effect of `InitDevSpaceConfig` on profiles behind shared pointers -/

/-- On a name without an entry a new object is allocated and put under the name. -/
theorem ConfigRef.InitDevSpaceConfig_allocates (heap : ProfileHeap) (config : ConfigRef)
    (name : String) (l : List (String × Option Addr)) (hl : config.Profiles = some l)
    (h : entriesGet l name = none) :
    config.InitDevSpaceConfig heap name =
      .ok (heap ++ [NewCache],
        { config with Profiles := some (entriesSet l name (some heap.length)) }) := by
  simp [ConfigRef.InitDevSpaceConfig, GoMap.get, GoMap.set, hl, h, bind, Except.bind, pure,
    Except.pure]

/-- On a name whose pointer leads to an object, the nil nested maps of that object
are filled; the map of pointers is not touched. -/
theorem ConfigRef.InitDevSpaceConfig_fills (heap : ProfileHeap) (config : ConfigRef)
    (name : String) (a : Addr) (old : CacheConfig)
    (h : config.Profiles.get name = some (some a)) (ha : heap[a]? = some old) :
    config.InitDevSpaceConfig heap name = .ok (heap.set a old.backfill, config) := by
  obtain ⟨d, i, p, lc⟩ := old
  cases d <;> cases i <;> cases p <;>
    simp [ConfigRef.InitDevSpaceConfig, h, ha, CacheConfig.backfill]

/-- What a name leads to in the config with its pointers replaced by objects. -/
theorem ConfigRef.deref_get (heap : ProfileHeap) (config : ConfigRef) (k : String) :
    (config.deref heap).Profiles.get k = config.profile heap k := by
  obtain ⟨ov, ap, vars, profiles⟩ := config
  cases profiles with
  | none => rfl
  | some l =>
    simp only [ConfigRef.deref, ConfigRef.profile, GoMap.get, Option.map_some']
    exact entriesGet_map (fun p : Option Addr => p.bind fun a => heap[a]?) l k

/-- The two embeddings of `InitDevSpaceConfig` agree where the pointer of the name
is held by no other name: the call on profiles behind pointers panics exactly
when the call on profiles held in place does, with the same panic, and otherwise
every name leads to the same cache after both. -/
theorem ConfigRef.InitDevSpaceConfig_deref (heap : ProfileHeap) (config : ConfigRef)
    (name : String)
    (hvalid : ∀ k a, config.Profiles.get k = some (some a) → a < heap.length)
    (hshare : ∀ other a, other ≠ name → config.Profiles.get name = some (some a) →
      config.Profiles.get other ≠ some (some a)) :
    (∀ e, config.InitDevSpaceConfig heap name = .error e →
      Generated.InitDevSpaceConfig (config.deref heap) name = .error e) ∧
    (∀ heap' config', config.InitDevSpaceConfig heap name = .ok (heap', config') →
      ∃ c1, Generated.InitDevSpaceConfig (config.deref heap) name = .ok c1 ∧
        (∀ k, (config'.deref heap').Profiles.get k = c1.Profiles.get k) ∧
        (config'.deref heap').Vars = c1.Vars ∧
        (config'.deref heap').ActiveProfile = c1.ActiveProfile ∧
        (config'.deref heap').OverrideProfile = c1.OverrideProfile) := by
  obtain ⟨ov, ap, vars, profiles⟩ := config
  cases profiles with
  | none =>
    constructor
    · intro e he
      have : e = .nilMapAssignment := by
        simp [ConfigRef.InitDevSpaceConfig, GoMap.get, GoMap.set, bind, Except.bind] at he
        exact he.symm
      subst this
      exact Generated.InitDevSpaceConfig_nil_map _ name rfl
    · intro heap' config' h
      simp [ConfigRef.InitDevSpaceConfig, GoMap.get, GoMap.set, bind, Except.bind] at h
  | some l =>
    have hget : ∀ k, (ConfigRef.mk ov ap vars (some l)).Profiles.get k = entriesGet l k :=
      fun k => rfl
    have hderef : ((ConfigRef.mk ov ap vars (some l)).deref heap).Profiles
        = some (l.map fun e => (e.1, e.2.bind fun a => heap[a]?)) := rfl
    have hdget : ∀ k, entriesGet (l.map fun e => (e.1, e.2.bind fun a => heap[a]?)) k
        = (entriesGet l k).map fun p => p.bind fun a => heap[a]? :=
      fun k => entriesGet_map (fun p : Option Addr => p.bind fun a => heap[a]?) l k
    cases hg : entriesGet l name with
    | none =>
      have hp := ConfigRef.InitDevSpaceConfig_allocates heap (ConfigRef.mk ov ap vars (some l))
        name l rfl hg
      have hv := Generated.InitDevSpaceConfig_absent ((ConfigRef.mk ov ap vars (some l)).deref heap) name
        _ hderef (by rw [hdget, hg]; rfl)
      constructor
      · intro e he
        rw [hp] at he
        cases he
      · intro heap' config' h
        rw [hp] at h
        simp only [Except.ok.injEq, Prod.mk.injEq] at h
        obtain ⟨h1, h2⟩ := h
        subst h1; subst h2
        refine ⟨_, hv, ?_, rfl, rfl, rfl⟩
        intro k
        rw [ConfigRef.deref_get]
        simp only [ConfigRef.profile, GoMap.get]
        by_cases hk : k = name
        · subst hk
          rw [entriesGet_entriesSet_self, entriesGet_entriesSet_self]
          simp
        · rw [entriesGet_entriesSet_of_ne _ name k _ (Ne.symm hk),
            entriesGet_entriesSet_of_ne _ name k _ (Ne.symm hk), hdget]
          cases ho : entriesGet l k with
          | none => rfl
          | some p =>
            cases p with
            | none => rfl
            | some b =>
              have hb : b < heap.length := hvalid k b (by rw [hget, ho])
              simp [List.getElem?_append_left hb]
    | some p =>
      cases p with
      | none =>
        constructor
        · intro e he
          have : e = .nilPointerDereference := by
            simp [ConfigRef.InitDevSpaceConfig, GoMap.get, hg] at he
            exact he.symm
          subst this
          apply Generated.InitDevSpaceConfig_nil_entry
          rw [ConfigRef.deref_get]
          simp [ConfigRef.profile, hget, hg]
        · intro heap' config' h
          simp [ConfigRef.InitDevSpaceConfig, GoMap.get, hg] at h
      | some a =>
        have hname : (ConfigRef.mk ov ap vars (some l)).Profiles.get name = some (some a) := by
          rw [hget, hg]
        have halt : a < heap.length := hvalid name a hname
        obtain ⟨old, hold⟩ : ∃ old, heap[a]? = some old :=
          ⟨heap[a], List.getElem?_eq_getElem halt⟩
        have hp := ConfigRef.InitDevSpaceConfig_fills heap (ConfigRef.mk ov ap vars (some l))
          name a old hname hold
        have hv := Generated.InitDevSpaceConfig_present ((ConfigRef.mk ov ap vars (some l)).deref heap)
          name _ hderef old (by rw [hdget, hg]; simp [hold])
        constructor
        · intro e he
          rw [hp] at he
          cases he
        · intro heap' config' h
          rw [hp] at h
          simp only [Except.ok.injEq, Prod.mk.injEq] at h
          obtain ⟨h1, h2⟩ := h
          subst h1; subst h2
          refine ⟨_, hv, ?_, rfl, rfl, rfl⟩
          intro k
          rw [ConfigRef.deref_get]
          simp only [ConfigRef.profile, GoMap.get]
          by_cases hk : k = name
          · subst hk
            rw [entriesGet_entriesSet_self, hg]
            simp [halt]
          · rw [entriesGet_entriesSet_of_ne _ name k _ (Ne.symm hk), hdget]
            cases ho : entriesGet l k with
            | none => rfl
            | some q =>
              cases q with
              | none => rfl
              | some b =>
                have hba : a ≠ b := by
                  intro hab
                  subst hab
                  exact hshare k a hk hname (by rw [hget, ho])
                simp [List.getElem?_set_ne hba]

/-- C13, as stated, fails, in two ways. With a nil pointer under "staging" in a
non-nil `Profiles` map, `InitDevSpaceConfig` panics instead of completing. And
when "a" and "b" hold the same pointer, initialising "a" fills the nil maps of
the object both point to, so that the entry of the other name "b" changes. -/
theorem InitDevSpaceConfig_nil_or_shared_entry :
    (ConfigRef.mk none "default" (some [("k", "v")])
        (some [("default", some 0), ("staging", none)])).InitDevSpaceConfig [NewCache] "staging"
      = .error .nilPointerDereference ∧
    (ConfigRef.mk none "a" (some []) (some [("a", some 0), ("b", some 0)])).InitDevSpaceConfig
        [⟨none, none, none, none⟩] "a"
      = .ok ([⟨some [], some [], some [], none⟩],
          ConfigRef.mk none "a" (some []) (some [("a", some 0), ("b", some 0)])) ∧
    (ConfigRef.mk none "a" (some []) (some [("a", some 0), ("b", some 0)])).profile
        [⟨none, none, none, none⟩] "b" = some (some ⟨none, none, none, none⟩) ∧
    (ConfigRef.mk none "a" (some []) (some [("a", some 0), ("b", some 0)])).profile
        [⟨some [], some [], some [], none⟩] "b"
      = some (some ⟨some [], some [], some [], none⟩) := by
  decide

/-- C13, amended: for every config with a non-nil `Profiles` map, whose pointers
all lead to objects, and every name whose entry is absent or a non-nil pointer,
`InitDevSpaceConfig` completes, and afterwards: if the name was absent it leads to
a new cache with three empty maps and no `LastContext`; if it was present, each
nil nested map of its cache is an empty one, each non-nil nested map and
`LastContext` are as before; every other name holds the pointer it held, and
leads to the cache it led to unless it holds the pointer of the name, in which
case it leads to the same filled cache as the name; `Vars`, `ActiveProfile` and
`OverrideProfile` are unchanged. -/
theorem InitDevSpaceConfig_effect_shared (heap : ProfileHeap) (config : ConfigRef)
    (name : String) (hp : config.Profiles.isSome)
    (hn : config.Profiles.get name ≠ some none)
    (hvalid : ∀ k a, config.Profiles.get k = some (some a) → a < heap.length) :
    ∃ heap' config', config.InitDevSpaceConfig heap name = .ok (heap', config') ∧
      (config.Profiles.get name = none →
        config'.profile heap' name = some (some ⟨some [], some [], some [], none⟩)) ∧
      (∀ old, config.profile heap name = some (some old) →
        ∃ new, config'.profile heap' name = some (some new) ∧
          (old.Deployments = none → new.Deployments = some []) ∧
          (∀ m, old.Deployments = some m → new.Deployments = some m) ∧
          (old.Images = none → new.Images = some []) ∧
          (∀ m, old.Images = some m → new.Images = some m) ∧
          (old.Dependencies = none → new.Dependencies = some []) ∧
          (∀ m, old.Dependencies = some m → new.Dependencies = some m) ∧
          new.LastContext = old.LastContext) ∧
      (∀ other, other ≠ name → config'.Profiles.get other = config.Profiles.get other) ∧
      (∀ other, other ≠ name →
        (∀ a, config.Profiles.get name = some (some a) →
          config.Profiles.get other ≠ some (some a)) →
        config'.profile heap' other = config.profile heap other) ∧
      (∀ other a, config.Profiles.get name = some (some a) →
        config.Profiles.get other = some (some a) →
        config'.profile heap' other = config'.profile heap' name) ∧
      config'.Vars = config.Vars ∧ config'.ActiveProfile = config.ActiveProfile ∧
      config'.OverrideProfile = config.OverrideProfile := by
  obtain ⟨ov, ap, vars, profiles⟩ := config
  cases profiles with
  | none => simp at hp
  | some l =>
    have hl : (ConfigRef.mk ov ap vars (some l)).Profiles = some l := rfl
    have hget : ∀ k, (ConfigRef.mk ov ap vars (some l)).Profiles.get k = entriesGet l k := by
      intro k; rfl
    cases hg : entriesGet l name with
    | none =>
      refine ⟨_, _, ConfigRef.InitDevSpaceConfig_allocates heap _ name l hl hg,
        ?_, ?_, ?_, ?_, ?_, rfl, rfl, rfl⟩
      · intro _
        simp [ConfigRef.profile, GoMap.get, entriesGet_entriesSet_self, NewCache]
      · intro old hold
        simp [ConfigRef.profile, hget, hg] at hold
      · intro other hne
        simp only [GoMap.get]
        exact entriesGet_entriesSet_of_ne l name other _ (Ne.symm hne)
      · intro other hne _
        have hsame : entriesGet (entriesSet l name (some heap.length)) other
            = entriesGet l other := entriesGet_entriesSet_of_ne l name other _ (Ne.symm hne)
        simp only [ConfigRef.profile, GoMap.get, hsame]
        cases ho : entriesGet l other with
        | none => rfl
        | some p =>
          cases p with
          | none => rfl
          | some b =>
            have hb : b < heap.length := hvalid other b (by rw [hget, ho])
            simp [List.getElem?_append_left hb]
      · intro other a ha
        rw [hget, hg] at ha
        cases ha
    | some p =>
      cases p with
      | none => exact absurd (by rw [hget, hg]) hn
      | some a =>
        have hname : (ConfigRef.mk ov ap vars (some l)).Profiles.get name = some (some a) := by
          rw [hget, hg]
        have halt : a < heap.length := hvalid name a hname
        obtain ⟨old, hold⟩ : ∃ old, heap[a]? = some old :=
          ⟨heap[a], List.getElem?_eq_getElem halt⟩
        have hnew : (heap.set a old.backfill)[a]? = some old.backfill := by
          simp [halt]
        refine ⟨_, _, ConfigRef.InitDevSpaceConfig_fills heap _ name a old hname hold,
          ?_, ?_, ?_, ?_, ?_, rfl, rfl, rfl⟩
        · intro habs
          rw [hname] at habs
          cases habs
        · intro old' hold'
          have hprof : ConfigRef.profile heap (ConfigRef.mk ov ap vars (some l)) name
              = some (some old) := by
            simp [ConfigRef.profile, hname, hold]
          have : old' = old := by
            rw [hprof] at hold'
            simp only [Option.some.injEq] at hold'
            exact hold'.symm
          subst this
          refine ⟨old'.backfill, ?_, ?_⟩
          · simp [ConfigRef.profile, hname, hnew]
          · refine ⟨?_, ?_, ?_, ?_, ?_, ?_, rfl⟩ <;> intros <;> simp_all [CacheConfig.backfill]
        · intro other _
          rfl
        · intro other _ hshare
          have hoa := hshare a hname
          simp only [ConfigRef.profile]
          cases ho : (ConfigRef.mk ov ap vars (some l)).Profiles.get other with
          | none => rfl
          | some q =>
            cases q with
            | none => rfl
            | some b =>
              have hba : a ≠ b := by
                intro hab
                subst hab
                exact hoa ho
              simp [List.getElem?_set_ne hba]
        · intro other a' ha' ho
          rw [hname] at ha'
          simp only [Option.some.injEq] at ha'
          subst ha'
          simp only [ConfigRef.profile, ho, hname]

/-- C13, an instance: "staging" and "canary" hold one pointer to a cache with a
nil `Images` map, "default" holds another. -/
theorem InitDevSpaceConfig_effect_shared_witness :
    ∃ heap' config',
      (ConfigRef.mk (some "staging") "default" (some [("k", "v")])
        (some [("default", some 0), ("staging", some 1), ("canary", some 1)])).InitDevSpaceConfig
        [⟨none, none, none, none⟩, ⟨some [("api", some 0)], none, none, some ⟨"ns", "ctx"⟩⟩]
        "staging" = .ok (heap', config') ∧
      config'.profile heap' "staging"
        = some (some ⟨some [("api", some 0)], some [], some [], some ⟨"ns", "ctx"⟩⟩) ∧
      config'.profile heap' "default" = some (some ⟨none, none, none, none⟩) ∧
      config'.profile heap' "canary" = config'.profile heap' "staging" ∧
      config'.Vars = some [("k", "v")] ∧ config'.ActiveProfile = "default" ∧
      config'.OverrideProfile = some "staging" := by
  obtain ⟨heap', config', h, _, _, _, hother, hshared, hv, ha, ho⟩ :=
    InitDevSpaceConfig_effect_shared
      [⟨none, none, none, none⟩, ⟨some [("api", some 0)], none, none, some ⟨"ns", "ctx"⟩⟩]
      (ConfigRef.mk (some "staging") "default" (some [("k", "v")])
        (some [("default", some 0), ("staging", some 1), ("canary", some 1)]))
      "staging" (by decide) (by decide)
      (by
        intro k a hk
        simp only [GoMap.get, entriesGet] at hk
        split at hk
        · cases hk; decide
        · split at hk
          · cases hk; decide
          · split at hk
            · cases hk; decide
            · cases hk)
  refine ⟨heap', config', h, ?_, ?_, ?_, hv, ha, ho⟩
  · have h2 : (ConfigRef.mk (some "staging") "default" (some [("k", "v")])
        (some [("default", some 0), ("staging", some 1), ("canary", some 1)])).InitDevSpaceConfig
        [⟨none, none, none, none⟩, ⟨some [("api", some 0)], none, none, some ⟨"ns", "ctx"⟩⟩]
        "staging"
        = .ok ([⟨none, none, none, none⟩,
            ⟨some [("api", some 0)], some [], some [], some ⟨"ns", "ctx"⟩⟩],
          ConfigRef.mk (some "staging") "default" (some [("k", "v")])
            (some [("default", some 0), ("staging", some 1), ("canary", some 1)])) := by
      decide
    rw [h2] at h
    cases h
    decide
  · rw [hother "default" (by decide) (by
      intro a ha
      have : a = 1 := by
        have h1 : (ConfigRef.mk (some "staging") "default" (some [("k", "v")])
            (some [("default", some 0), ("staging", some 1), ("canary", some 1)])).Profiles.get
            "staging" = some (some 1) := by decide
        rw [h1] at ha
        simp only [Option.some.injEq] at ha
        exact ha.symm
      subst this
      decide)]
    decide
  · exact hshared "canary" 1 (by decide) (by decide)

/-! ## Save, then load -/

theorem GoMap.get_eq_entriesGet {V : Type} (m : GoMap V) (k : String) :
    m.get k = entriesGet (m.getD []) k := by
  cases m with
  | none => rfl
  | some l => rfl

/-- The content of a profile as mappings is read off its list of entries. -/
theorem CacheConfig.content_eq_view (s : Store) (c : CacheConfig) :
    c.content s =
      { deployments := entriesGet (viewProfile s c).deployments
        images := entriesGet (viewProfile s c).images
        dependencies := entriesGet (viewProfile s c).dependencies
        lastContext := (viewProfile s c).lastContext } := by
  simp only [CacheConfig.content, viewProfile, viewEntries, ProfileContent.mk.injEq, and_true]
  refine ⟨?_, ?_, ?_⟩
  · funext k
    rw [GoMap.get_eq_entriesGet]
    exact (entriesGet_map (fun p : Option Addr => p.bind fun a => s.deployments[a]?) _ k).symm
  · funext k
    rw [GoMap.get_eq_entriesGet]
    exact (entriesGet_map (fun p : Option Addr => p.bind fun a => s.images[a]?) _ k).symm
  · funext k
    rw [GoMap.get_eq_entriesGet]

/-- Profiles with the same list of entries have the same content. -/
theorem CacheConfig.content_eq_of_viewProfile (s s' : Store) (c c' : CacheConfig)
    (h : viewProfile s c = viewProfile s' c') : c.content s = c'.content s' := by
  rw [CacheConfig.content_eq_view, CacheConfig.content_eq_view, h]

/-- Configs with the same lists of entries have the same content. -/
theorem Config.content_eq_of_view (s s' : Store) (c c' : Config)
    (h : viewConfig s c = viewConfig s' c') : c.content s = c'.content s' := by
  have ha : c.ActiveProfile = c'.ActiveProfile := congrArg ConfigView.activeProfile h
  have hv : c.Vars.getD [] = c'.Vars.getD [] := congrArg ConfigView.vars h
  have hp : (c.Profiles.getD []).map (fun e => (e.1, e.2.map (viewProfile s)))
      = (c'.Profiles.getD []).map (fun e => (e.1, e.2.map (viewProfile s'))) :=
    congrArg ConfigView.profiles h
  simp only [Config.content, ConfigContent.mk.injEq]
  refine ⟨ha, ?_, ?_⟩
  · funext k
    rw [GoMap.get_eq_entriesGet, GoMap.get_eq_entriesGet, hv]
  · funext k
    have h1 := entriesGet_map (Option.map (viewProfile s)) (c.Profiles.getD []) k
    have h2 := entriesGet_map (Option.map (viewProfile s')) (c'.Profiles.getD []) k
    rw [hp] at h1
    rw [h1] at h2
    rw [GoMap.get_eq_entriesGet, GoMap.get_eq_entriesGet]
    cases hc : entriesGet (c.Profiles.getD []) k with
    | none =>
      cases hc' : entriesGet (c'.Profiles.getD []) k with
      | none => rfl
      | some q => rw [hc, hc'] at h2; cases h2
    | some p =>
      cases hc' : entriesGet (c'.Profiles.getD []) k with
      | none => rw [hc, hc'] at h2; cases h2
      | some q =>
        rw [hc, hc'] at h2
        simp only [Option.map_some', Option.some.injEq] at h2
        cases p with
        | none =>
          cases q with
          | none => rfl
          | some q => cases h2
        | some p =>
          cases q with
          | none => cases h2
          | some q =>
            simp only [Option.map_some', Option.some.injEq] at h2
            simp only [Option.map_some']
            rw [CacheConfig.content_eq_of_viewProfile s s' p q h2]

/-- In the document encoding, decoding the document of a config gives a config
of the same content. -/
theorem yamlUnmarshal_yamlMarshal_content (s s2 : Store) (c : Config) :
    (yamlUnmarshal s2 (yamlMarshal s c)).2.content (yamlUnmarshal s2 (yamlMarshal s c)).1
      = c.content s :=
  Config.content_eq_of_view _ _ _ _ (yamlUnmarshal_yamlMarshal_view s s2 c)

theorem CacheConfig.content_backfill (s : Store) (c : CacheConfig) :
    c.backfill.content s = c.content s := by
  obtain ⟨d, i, p, lc⟩ := c
  cases d <;> cases i <;> cases p <;>
    simp [CacheConfig.content, CacheConfig.backfill, GoMap.get, entriesGet]

theorem NewCache_content (s : Store) : NewCache.content s = ProfileContent.empty := by
  simp [CacheConfig.content, NewCache, ProfileContent.empty, GoMap.get, entriesGet]

/-- The content of a config after `InitDevSpaceConfig` is its content before, with
a profile under the name: the one that was there, or an empty one. -/
theorem Config.content_InitDevSpaceConfig (s : Store) (c c1 : Config) (name : String)
    (h : InitDevSpaceConfig c name = .ok c1) :
    c1.content s = (c.content s).ensure name := by
  obtain ⟨l, cache, hl, hc, _, hcase⟩ := InitDevSpaceConfig_ok c c1 name h
  have hold : ∀ k, c.Profiles.get k = entriesGet l k := by
    intro k; simp [GoMap.get, hl]
  have hnew : ∀ k, c1.Profiles.get k = entriesGet (entriesSet l name (some cache)) k := by
    intro k; rw [hc]; rfl
  have hc1a : c1.ActiveProfile = c.ActiveProfile := by rw [hc]
  have hc1v : c1.Vars = c.Vars := by rw [hc]
  simp only [Config.content, ConfigContent.ensure, ConfigContent.mk.injEq]
  refine ⟨hc1a, by rw [hc1v], ?_⟩
  funext k
  by_cases hk : k = name
  · subst hk
    rw [hnew, entriesGet_entriesSet_self, hold]
    rcases hcase with ⟨hg, hcache⟩ | ⟨old, hg, hcache⟩
    · simp [hg, hcache, NewCache_content]
    · simp [hg, hcache, CacheConfig.content_backfill]
  · rw [hnew, entriesGet_entriesSet_of_ne l name k _ (Ne.symm hk)]
    simp [hk, hold]

/-- `InitDevSpaceConfig` returns on a config with a non-nil `Profiles` map whose
content has no nil profile under the name. -/
theorem InitDevSpaceConfig_returns_of_content (s : Store) (c : Config) (name : String)
    (hp : c.Profiles.isSome) (hn : (c.content s).profiles name ≠ some none) :
    ∃ c1, InitDevSpaceConfig c name = .ok c1 := by
  apply InitDevSpaceConfig_returns c name hp
  intro hnil
  apply hn
  simp [Config.content, hnil]

/-- C17, amended: for every cache that `SaveConfig` saves with success outside
test mode, loading the written file with `LoadConfigFromPath` under a context
without an override decodes the encoding of the cache as it was passed to
`SaveConfig`. When the decoder fails on it, the load returns that error and no
cache. When the decoder returns a cache with the content that was encoded, the
load returns a cache without override that has the content of the saved cache,
as `SaveConfig` left it: the same `ActiveProfile`, each name of `Vars` leading
to the same value, each profile name leading to a profile whose `Deployments`,
`Images` and `Dependencies` lead from each name to the same value, with the same
`LastContext`; a nil map and a map without entries have the same content. (For
every encoder and decoder, and every file system in which a file that was
written reads back as written.) -/
theorem save_then_load {σ β : Type} (env : Env σ β)
    (hfs : ∀ fs path data fs', env.WriteFile fs path data = (fs', none) →
      env.ReadFile fs' path = .ok data)
    (g : Globals) (fs fs1 : σ) (s s2 : Store) (config config1 : Config) (ctx : Context)
    (ht : g.testDontSaveConfig = false)
    (hsave : SaveConfig env g fs s config = .ok (fs1, config1, none))
    (hctx : ctx.profile = none ∨ ctx.profile = some (.str "")) :
    ∃ data, env.Marshal s config = .ok data ∧
      (∀ err, env.Unmarshal s2 data = .error err →
        LoadConfigFromPath env fs1 s2 ctx (env.Join (env.Getwd fs) ConfigPath)
          = .ok (s2, none, some err)) ∧
      (∀ s3 c', env.Unmarshal s2 data = .ok (s3, c') → c'.content s3 = config.content s →
        ∃ cfg, LoadConfigFromPath env fs1 s2 ctx (env.Join (env.Getwd fs) ConfigPath)
            = .ok (s3, some cfg, none) ∧
          cfg.OverrideProfile = none ∧ cfg.content s3 = config1.content s) := by
  obtain ⟨data, hm, hread, hinit⟩ :=
    SaveConfig_file_holds_cache_as_passed env hfs g fs fs1 s config config1 ht hsave
  refine ⟨data, hm, ?_, ?_⟩
  · intro err hu
    exact LoadConfigFromPath_decode_error env fs1 s2 ctx _ data err hread hu
  · intro s3 c' hu hcontent
    rw [LoadConfigFromPath_decoded env fs1 s2 s3 ctx _ data c' hread hu,
      finish_no_override s3 ctx _ hctx]
    have hact : c'.ActiveProfile = config.ActiveProfile :=
      congrArg ConfigContent.activeProfile hcontent
    have hsaved : config1.content s = (config.content s).ensure config.ActiveProfile :=
      Config.content_InitDevSpaceConfig s config config1 _ hinit
    have hnorm : (Config.mk none c'.ActiveProfile (some (c'.Vars.getD []))
        (some (c'.Profiles.getD []))).content s3 = config.content s := by
      rw [← hcontent]
      simp only [Config.content, ConfigContent.mk.injEq, true_and]
      constructor
      · funext k
        rw [GoMap.get_eq_entriesGet, GoMap.get_eq_entriesGet c'.Vars]
        rfl
      · funext k
        rw [GoMap.get_eq_entriesGet, GoMap.get_eq_entriesGet c'.Profiles]
        rfl
    have hnn : ((Config.mk none c'.ActiveProfile (some (c'.Vars.getD []))
        (some (c'.Profiles.getD []))).content s3).profiles c'.ActiveProfile ≠ some none := by
      rw [hnorm, hact]
      intro hnil
      have := congrArg (fun v => v.profiles config.ActiveProfile) hsaved
      obtain ⟨l, cache, hl, _, _, hcase⟩ := InitDevSpaceConfig_ok config config1 _ hinit
      have hget : config.Profiles.get config.ActiveProfile = entriesGet l config.ActiveProfile := by
        simp [GoMap.get, hl]
      simp only [Config.content, hget] at hnil
      rcases hcase with ⟨hg, _⟩ | ⟨old, hg, _⟩
      · rw [hg] at hnil; cases hnil
      · rw [hg] at hnil; cases hnil
    obtain ⟨cfg, hi⟩ := InitDevSpaceConfig_returns_of_content s3
      (Config.mk none c'.ActiveProfile (some (c'.Vars.getD [])) (some (c'.Profiles.getD [])))
      c'.ActiveProfile (by simp) hnn
    have hloaded := Config.content_InitDevSpaceConfig s3 _ cfg _ hi
    have ho : cfg.OverrideProfile = none := by
      obtain ⟨l, cache, _, hc, _, _⟩ := InitDevSpaceConfig_ok _ _ _ hi
      rw [hc]
    refine ⟨cfg, ?_, ho, ?_⟩
    · show Except.map _ (InitDevSpaceConfig
        (Config.mk none c'.ActiveProfile (some (c'.Vars.getD [])) (some (c'.Profiles.getD [])))
        c'.ActiveProfile) = _
      rw [hi]
      rfl
    · rw [hloaded, hsaved, hnorm, hact]

/-- C17, an instance: in the in-memory environment a cache whose second profile
has empty maps is saved and loaded; and in an environment whose decoder fails,
the load of the saved file returns the error. -/
theorem save_then_load_witness :
    (∃ cfg,
      LoadConfigFromPath memEnv
          [(ConfigPath, ⟨some "old", some "default", some [("k", "v")],
            some [("default", some ⟨none,
                some [("web", some ⟨none, none, none, none, none, none, some "v1"⟩)], none, none⟩),
              ("staging", some ⟨none, none, none, some ⟨some "ns", none⟩⟩)]⟩)]
          ⟨[⟨"", "", "", "", "", "", "v1"⟩], []⟩ ⟨some (.str "")⟩
          (memEnv.Join (memEnv.Getwd []) ConfigPath)
        = .ok (⟨[⟨"", "", "", "", "", "", "v1"⟩, ⟨"", "", "", "", "", "", "v1"⟩], []⟩,
            some cfg, none) ∧
      cfg.OverrideProfile = none ∧
      cfg.content ⟨[⟨"", "", "", "", "", "", "v1"⟩, ⟨"", "", "", "", "", "", "v1"⟩], []⟩
        = (Config.mk (some "old") "default" (some [("k", "v")])
            (some [("default", some ⟨some [], some [("web", some 0)], some [], none⟩),
              ("staging", some ⟨some [], none, some [], some ⟨"ns", ""⟩⟩)])).content
            ⟨[⟨"", "", "", "", "", "", "v1"⟩], []⟩) ∧
    (∃ data, (faultyEnv none (some (.decode "bad")) none none).Marshal ⟨[], []⟩
        ⟨none, "dev", some [("<<", "x")], some []⟩ = .ok data ∧
      LoadConfigFromPath (faultyEnv none (some (.decode "bad")) none none)
          [(ConfigPath, ⟨none, some "dev", some [("<<", "x")], none⟩)] ⟨[], []⟩ ⟨none⟩
          ((faultyEnv none (some (.decode "bad")) none none).Join
            ((faultyEnv none (some (.decode "bad")) none none).Getwd []) ConfigPath)
        = .ok (⟨[], []⟩, none, some (.decode "bad"))) := by
  constructor
  · obtain ⟨data, hm, _, hb⟩ :=
      save_then_load memEnv memEnv_read_after_write Globals.initial []
        [(ConfigPath, ⟨some "old", some "default", some [("k", "v")],
          some [("default", some ⟨none,
              some [("web", some ⟨none, none, none, none, none, none, some "v1"⟩)], none, none⟩),
            ("staging", some ⟨none, none, none, some ⟨some "ns", none⟩⟩)]⟩)]
        ⟨[⟨"", "", "", "", "", "", "v1"⟩], []⟩ ⟨[⟨"", "", "", "", "", "", "v1"⟩], []⟩
        ⟨some "old", "default", some [("k", "v")],
          some [("default", some ⟨none, some [("web", some 0)], some [], none⟩),
            ("staging", some ⟨some [], none, some [], some ⟨"ns", ""⟩⟩)]⟩
        ⟨some "old", "default", some [("k", "v")],
          some [("default", some ⟨some [], some [("web", some 0)], some [], none⟩),
            ("staging", some ⟨some [], none, some [], some ⟨"ns", ""⟩⟩)]⟩
        ⟨some (.str "")⟩ (by decide) (by decide) (by decide)
    have hd : data = yamlMarshal ⟨[⟨"", "", "", "", "", "", "v1"⟩], []⟩
        ⟨some "old", "default", some [("k", "v")],
          some [("default", some ⟨none, some [("web", some 0)], some [], none⟩),
            ("staging", some ⟨some [], none, some [], some ⟨"ns", ""⟩⟩)]⟩ := by
      simp only [memEnv, Except.ok.injEq] at hm
      exact hm.symm
    subst hd
    exact hb _ _ rfl (yamlUnmarshal_yamlMarshal_content _ _ _)
  · obtain ⟨data, hm, ha, _⟩ :=
      save_then_load (faultyEnv none (some (.decode "bad")) none none)
        (by
          intro fs path data fs' hw
          exact memEnv_read_after_write fs path data fs' hw)
        Globals.initial []
        [(ConfigPath, ⟨none, some "dev", some [("<<", "x")], none⟩)]
        ⟨[], []⟩ ⟨[], []⟩ ⟨none, "dev", some [("<<", "x")], some []⟩
        ⟨none, "dev", some [("<<", "x")], some [("dev", some NewCache)]⟩
        ⟨none⟩ (by decide) (by decide) (by decide)
    exact ⟨data, hm, ha (.decode "bad") rfl⟩

end Generated
